import Mathlib

/-!
Shallow embedding of the autodeploy-server repository (src/app_builder.py and
src/openai_deployer.py). Both files are complete Flask servers sharing the
same gateway, orchestrator skeleton and notifier; they differ in the LLM
provider used by generate_app_with_llm and in the publisher
create_or_update_github_repo (the openai_deployer variant has an explicit
pre_fetch_code mode with an early return, the app_builder variant does not).

External effects (HTTP calls to the LLM provider, the hosting platform and
the callback URL, and time.sleep) are modelled by oracle functions supplied
as inputs, and each embedded function returns, besides its Python return
value, the list of external events it performs, in order. A Python function
that can raise an uncaught exception returns an Except value; exceptions
that the source catches locally are folded into the definition exactly where
the try/except sits in the source.
-/

namespace AutoDeploy

/-- External events performed by the workflow, in program order. -/
inductive Ev
  /-- GET of the stored index.html content (the pre-fetch read of the markup). -/
  | fetchMarkup
  /-- POST /user/repos (create the remote project). -/
  | createRepo
  /-- GET contents/<name> inside the commit loop, to look up the current sha. -/
  | getMeta (name : String)
  /-- PUT contents/<name> (commit one file). -/
  | putFile (name : String)
  /-- POST to the pages API (enable static hosting). -/
  | enablePages
  /-- HEAD probe of the public hosted-page URL. -/
  | probe
  /-- time.sleep of the given number of time-units. -/
  | sleep (n : Nat)
  /-- one call to the generative-text provider. -/
  | llmCall
  /-- POST of the notification payload to the callback URL. -/
  | notifyPost
  /-- log line written after the notifier exhausts its retries. -/
  | exhaustLog
  /-- log line written by the top-level except handler of process_task_async. -/
  | failedLog
  deriving DecidableEq

/-- Final state of one background task: completed its workflow, or hit a fatal
error that the top-level except handler of process_task_async logged. -/
inductive TaskState
  | done
  | failed
  deriving DecidableEq

/-- Fields of the inbound JSON task request that process_task_async reads. -/
structure RequestData where
  secret : Option String
  task : String
  round : Int
  brief : String
  email : String
  nonce : String
  evaluation_url : String

/-- Oracle for one call to create_or_update_github_repo: the outcomes the
hosting platform returns for each request the function may make.
fetchIndex is the GET of contents/index.html (error = requests exception,
including a raise_for_status failure; ok = the decoded file content);
createStatus the status of POST /user/repos; getStatus/getSha the status and
sha of the per-file GET in the commit loop; putStatus/putSha the status and
resulting commit sha of the per-file PUT; probeRes the outcome of the i-th
HEAD probe of the pages URL (none = requests exception, some s = status s). -/
structure GithubEnv where
  fetchIndex : Except Unit String
  createStatus : Nat
  getStatus : String → Nat
  getSha : String → Option String
  putStatus : String → Nat
  putSha : String → String
  probeRes : Nat → Option Nat

/-- Python dict returned by create_or_update_github_repo. A field is none
when the key is absent or its value is None (the source only reads absent
keys through dict.get, which yields None, so the two collapse). -/
structure RepoDetails where
  repo_url : Option String := none
  commit_sha : Option String := none
  pages_url : Option String := none
  existing_code : Option String := none
  deriving DecidableEq

/-- Body of the 401 response, jsonify of a dict with key error. -/
def unauthorizedBody : String := "\x7b\"error\":\"Unauthorized\"\x7d"

/-- Body of the 200 acknowledgment, jsonify of a dict with key status. -/
def acceptedBody : String := "\x7b\"status\":\"Request received and is being processed.\"\x7d"

/-- Outcome of handle_request: HTTP status and body of the synchronous
response, whether a background worker thread was spawned, and the event
trace of that worker ([] when none was spawned). -/
structure GatewayOutcome where
  status : Nat
  body : String
  workerSpawned : Bool
  workerTrace : List Ev
  deriving DecidableEq

/-- Embeds handle_request (identical in src/app_builder.py and
src/openai_deployer.py): reject with 401 when MY_SECRET is falsy (empty) or
the request secret differs, otherwise spawn the worker on the request and
acknowledge with 200. The response fields are constants fixed before the
worker runs, which embeds that the response never waits on the worker. -/
def handle_request (MY_SECRET : String) (req : RequestData)
    (worker : RequestData → TaskState × List Ev) : GatewayOutcome :=
  if MY_SECRET = "" ∨ req.secret ≠ some MY_SECRET then
    { status := 401, body := unauthorizedBody, workerSpawned := false, workerTrace := [] }
  else
    { status := 200, body := acceptedBody, workerSpawned := true,
      workerTrace := (worker req).2 }

/-- Embeds the startup check check_environment_variables: a variable is
missing when os.environ.get gives a falsy value (absent or empty string);
the process exits unless every required variable is present and nonempty. -/
def check_environment_variables (env : String → Option String)
    (required : List String) : Bool :=
  required.all (fun v =>
    match env v with
    | none => false
    | some s => s ≠ "")

/-- Embeds notify_evaluator's retry loop (identical in both source files):
max_retries = 5, initial delay 1; ok i tells whether the i-th POST to the
callback URL succeeds (requests.post plus raise_for_status). On success the
function returns; on failure with attempt < max_retries - 1 it sleeps delay
and doubles it; on the last attempt it logs exhaustion and breaks. The fuel
argument is the number of loop iterations left in range(max_retries). -/
def notifyLoop (ok : Nat → Bool) : Nat → Nat → Nat → List Ev
  | _, _, 0 => []
  | attempt, delay, fuel + 1 =>
    if ok attempt then
      [Ev.notifyPost]
    else if attempt < 5 - 1 then
      Ev.notifyPost :: Ev.sleep delay :: notifyLoop ok (attempt + 1) (delay * 2) fuel
    else
      [Ev.notifyPost, Ev.exhaustLog]

/-- Embeds notify_evaluator: run the retry loop from attempt 0, delay 1,
with the 5 iterations of range(max_retries). The return type carries no
error: the source catches requests.exceptions.RequestException, the only
exception its body raises, so the function always returns normally. -/
def notify_evaluator (ok : Nat → Bool) : List Ev :=
  notifyLoop ok 0 1 5

/-- Number of occurrences of one event in a trace. -/
def countEv (e : Ev) : List Ev → Nat
  | [] => 0
  | x :: tr => (if x = e then 1 else 0) + countEv e tr

/-- Durations of the sleep events of a trace, in order. -/
def sleepsOf : List Ev → List Nat
  | [] => []
  | Ev.sleep n :: tr => n :: sleepsOf tr
  | _ :: tr => sleepsOf tr

/-- Names of the files whose commit (PUT) was attempted, in order. -/
def putFilesOf : List Ev → List String
  | [] => []
  | Ev.putFile n :: tr => n :: putFilesOf tr
  | _ :: tr => putFilesOf tr

/-- Prefix of a trace strictly before the first LLM call. -/
def beforeLLM : List Ev → List Ev
  | [] => []
  | Ev.llmCall :: _ => []
  | x :: tr => x :: beforeLLM tr

/-- Suffix of a trace strictly after the first LLM call. -/
def afterLLM : List Ev → List Ev
  | [] => []
  | Ev.llmCall :: tr => tr
  | _ :: tr => afterLLM tr

/-- Whether an event is part of a publish attempt against the hosting
platform (project creation, per-file reads and writes, hosting enablement,
or a hosting probe). -/
def isPublishEv : Ev → Bool
  | Ev.createRepo => true
  | Ev.getMeta _ => true
  | Ev.putFile _ => true
  | Ev.enablePages => true
  | Ev.probe => true
  | _ => false

/-- Python dict assignment d[k] = v on a string-keyed dict kept as an
insertion-ordered association list: overwrite in place when the key exists,
append at the end otherwise. -/
def dictInsert : List (String × String) → String → String → List (String × String)
  | [], k, v => [(k, v)]
  | p :: tl, k, v => if p.1 == k then (k, v) :: tl else p :: dictInsert tl k v

/-- Whether a string-keyed dict has the given key (Python in-operator). -/
def hasKey (d : List (String × String)) (k : String) : Bool :=
  d.any (fun p => p.1 == k)

/-- Value of a key in a string-keyed dict, when present. -/
def lookupKey : List (String × String) → String → Option String
  | [], _ => none
  | p :: tl, k => if p.1 == k then some p.2 else lookupKey tl k

/-- Embeds the per-file commit loop shared by both variants of
create_or_update_github_repo: for each (filename, content) pair, GET the
upload URL to learn the current sha when the file already exists (the sha
feeds only the PUT payload), then PUT the new content; on PUT status 200 or
201 record the resulting commit sha and continue, on any other status raise.
Returns the latest commit sha after the last successful write (acc is the
value of latest_commit_sha so far) together with the event trace. -/
def commitFiles (getStatus : String → Nat) (getSha : String → Option String)
    (putStatus : String → Nat) (putSha : String → String) :
    List (String × String) → Option String → Except Unit (Option String) × List Ev
  | [], acc => (.ok acc, [])
  | (fn, _content) :: rest, _acc =>
    let _sha : Option String := if getStatus fn = 200 then getSha fn else none
    if putStatus fn = 200 ∨ putStatus fn = 201 then
      let r := commitFiles getStatus getSha putStatus putSha rest (some (putSha fn))
      (r.1, Ev.getMeta fn :: Ev.putFile fn :: r.2)
    else
      (.error (), [Ev.getMeta fn, Ev.putFile fn])

/-- Embeds the hosting-probe loop of both variants: for up to fuel
iterations (called with 12), HEAD the pages URL; on status 200 return
success at once, on any other status or on a requests exception sleep 10
and try again; i is the index of the next probe in the oracle. Returns
whether a probe succeeded, plus the event trace. -/
def pollPages (probeRes : Nat → Option Nat) : Nat → Nat → Bool × List Ev
  | _, 0 => (false, [])
  | i, fuel + 1 =>
    if probeRes i = some 200 then
      (true, [Ev.probe])
    else
      let r := pollPages probeRes (i + 1) fuel
      (r.1, Ev.probe :: Ev.sleep 10 :: r.2)

/-- Public hosted-page URL, computed from the account name and project name
(identical expression in both source files). -/
def pagesLiveUrl (user repo : String) : String :=
  "https://" ++ user ++ ".github.io/" ++ repo ++ "/"

namespace AppBuilder

/-- Fixed license document of src/app_builder.py (module constant
MIT_LICENSE_TEXT, a triple-quoted string beginning and ending with a
newline). -/
def MIT_LICENSE_TEXT : String :=
  "\nMIT License\n\nCopyright (c) 2025 Your Name\n\nPermission is hereby granted, free of charge, to any person obtaining a copy\nof this software and associated documentation files (the \"Software\"), to deal\nin the Software without restriction, including without limitation the rights\nto use, copy, modify, merge, publish, distribute, sublicense, and/or sell\ncopies of the Software, and to permit persons to whom the Software is\nfurnished to do so, subject to the following conditions:\n\nThe above copyright notice and this permission notice shall be included in all\ncopies or substantial portions of the Software.\n\nTHE SOFTWARE IS PROVIDED \"AS IS\", WITHOUT WARRANTY OF ANY KIND, EXPRESS OR\nIMPLIED, INCLUDING BUT NOT LIMITED TO THE WARRANTIES OF MERCHANTABILITY,\nFITNESS FOR A PARTICULAR PURPOSE AND NONINFRINGEMENT. IN NO EVENT SHALL THE\nAUTHORS OR COPYRIGHT HOLDERS BE LIABLE FOR ANY CLAIM, DAMAGES OR OTHER\nLIABILITY, WHETHER IN AN ACTION OF CONTRACT, TORT OR OTHERWISE, ARISING FROM,\nOUT OF OR IN CONNECTION WITH THE SOFTWARE OR THE USE OR OTHER DEALINGS IN THE\nSOFTWARE.\n"

/-- Repository URL as src/app_builder.py computes it. -/
def repoUrl (user repo : String) : String :=
  "https://github.com/" ++ user ++ "/" ++ repo

/-- Embeds create_or_update_github_repo of src/app_builder.py. There is no
pre-fetch flag: every round > 1 call first tries to GET the stored
index.html (swallowing any requests exception), every round 1 call POSTs
the project creation (status 201 and 422 proceed, anything else raises),
and every call then assigns LICENSE into files_to_commit, runs the commit
loop, enables hosting and polls the pages URL 12 times, returning the same
result dict whether or not a probe succeeded. -/
def create_or_update_github_repo (user repo_name : String) (round_num : Int)
    (files_to_commit : List (String × String)) (env : GithubEnv) :
    Except Unit RepoDetails × List Ev :=
  let preFetch : Option String × List Ev :=
    if round_num > 1 then
      match env.fetchIndex with
      | .ok c => (some c, [Ev.fetchMarkup])
      | .error _ => (none, [Ev.fetchMarkup])
    else (none, [])
  let createTr : List Ev := if round_num = 1 then [Ev.createRepo] else []
  if round_num = 1 ∧ env.createStatus ≠ 201 ∧ env.createStatus ≠ 422 then
    (.error (), preFetch.2 ++ createTr)
  else
    let files := dictInsert files_to_commit "LICENSE" MIT_LICENSE_TEXT
    match commitFiles env.getStatus env.getSha env.putStatus env.putSha files none with
    | (.error _, ctr) => (.error (), preFetch.2 ++ createTr ++ ctr)
    | (.ok sha, ctr) =>
      let poll := pollPages env.probeRes 0 12
      (.ok { repo_url := some (repoUrl user repo_name), commit_sha := sha,
             pages_url := some (pagesLiveUrl user repo_name),
             existing_code := preFetch.1 },
       preFetch.2 ++ createTr ++ ctr ++ [Ev.enablePages] ++ poll.2)

/-- Outcomes of the one Gemini API call of generate_app_with_llm in
src/app_builder.py, as distinguished by its except clause: a transport or
timeout failure of requests.post, a non-success status raised by
raise_for_status, a response JSON without the candidates text path (KeyError
or IndexError), or a received text whose json.loads result is carried as
parsed (none when the text is not valid JSON; the claims quantify over
object-or-invalid responses, so parsed is the parsed string-keyed object). -/
inductive LLMOutcome
  | transport
  | badStatus
  | badShape
  | text (parsed : Option (List (String × String)))

/-- Embeds generate_app_with_llm of src/app_builder.py: every outcome in
the except clause (transport, bad status, bad response shape, non-JSON
text, and the ValueError raised when the parsed object lacks index.html or
README.md) returns None; only an object with both keys is returned. -/
def generate_app_with_llm : LLMOutcome → Option (List (String × String))
  | .transport => none
  | .badStatus => none
  | .badShape => none
  | .text none => none
  | .text (some files) =>
    if hasKey files "index.html" && hasKey files "README.md" then
      some files
    else
      none

/-- Behaviour of the external world during one background task of
src/app_builder.py: the hosting-platform outcomes for the pre-fetch call
and for the main publish call, the LLM outcome, and the callback outcomes. -/
structure World where
  ghPre : GithubEnv
  llm : LLMOutcome
  ghPub : GithubEnv
  cb : Nat → Bool

/-- Embeds process_task_async of src/app_builder.py: when round > 1, call
the publisher on an empty dict to pre-fetch (its own try/except swallows
any error, leaving existing_code = None); call the generator, raising
ValueError when it returned None; call the publisher on the generated
files; build the notification payload from the publish result and notify.
The outer try/except converts any raised error into the fatal log line. -/
def process_task_async (user : String) (t : RequestData) (w : World) :
    TaskState × List Ev :=
  let pre : Option String × List Ev :=
    if t.round > 1 then
      match create_or_update_github_repo user t.task t.round [] w.ghPre with
      | (.ok d, tr) => (d.existing_code, tr)
      | (.error _, tr) => (none, tr)
    else (none, [])
  match generate_app_with_llm w.llm with
  | none => (.failed, pre.2 ++ [Ev.llmCall, Ev.failedLog])
  | some files =>
    match create_or_update_github_repo user t.task t.round files w.ghPub with
    | (.error _, tr) => (.failed, pre.2 ++ [Ev.llmCall] ++ tr ++ [Ev.failedLog])
    | (.ok _, tr) => (.done, pre.2 ++ [Ev.llmCall] ++ tr ++ notify_evaluator w.cb)

end AppBuilder

namespace OpenAIDeployer

/-- Fixed license document of src/openai_deployer.py (module constant
MIT_LICENSE_TEXT, a triple-quoted string without blank lines and with a
different copyright line). -/
def MIT_LICENSE_TEXT : String :=
  "\nMIT License\nCopyright (c) 2025 Your Name Harshabardhan Kashyap\nPermission is hereby granted, free of charge, to any person obtaining a copy\nof this software and associated documentation files (the \"Software\"), to deal\nin the Software without restriction, including without limitation the rights\nto use, copy, modify, merge, publish, distribute, sublicense, and/or sell\ncopies of the Software, and to permit persons to whom the Software is\nfurnished to do so, subject to the following conditions:\nThe above copyright notice and this permission notice shall be included in all\ncopies or substantial portions of the Software.\nTHE SOFTWARE IS PROVIDED \"AS IS\", WITHOUT WARRANTY OF ANY KIND, EXPRESS OR\nIMPLIED, INCLUDING BUT NOT LIMITED TO THE WARRANTIES OF MERCHANTABILITY,\nFITNESS FOR A PARTICULAR PURPOSE AND NONINFRINGEMENT. IN NO EVENT SHALL THE\nAUTHORS OR COPYRIGHT HOLDERS BE LIABLE FOR ANY CLAIM, DAMAGES OR OTHER\nLIABILITY, WHETHER IN AN ACTION OF CONTRACT, TORT OR OTHERWISE, ARISING FROM,\nOUT OF OR IN CONNECTION WITH THE SOFTWARE OR THE USE OR OTHER DEALINGS IN THE\nSOFTWARE.\n"

/-- Repository URL as src/openai_deployer.py computes it: the source line
was mangled by markdown link syntax, so the literal prefix contains the
bracketed link text before the account and project names. -/
def repoUrl (user repo : String) : String :=
  "[https://github.com/](https://github.com/)" ++ user ++ "/" ++ repo

/-- Embeds create_or_update_github_repo of src/openai_deployer.py. When
pre_fetch_code is true it only GETs the stored index.html and returns early
with a dict holding just existing_code (None on any requests exception);
otherwise it creates the project on round 1 (status 201 and 422 proceed,
anything else raises), assigns LICENSE into files_to_commit, runs the
commit loop, enables hosting and polls the pages URL 12 times, returning
the same three-key result dict whether or not a probe succeeded. -/
def create_or_update_github_repo (user repo_name : String) (round_num : Int)
    (files_to_commit : List (String × String)) (pre_fetch_code : Bool)
    (env : GithubEnv) : Except Unit RepoDetails × List Ev :=
  if pre_fetch_code then
    match env.fetchIndex with
    | .ok c => (.ok { existing_code := some c }, [Ev.fetchMarkup])
    | .error _ => (.ok { existing_code := none }, [Ev.fetchMarkup])
  else
    let createTr : List Ev := if round_num = 1 then [Ev.createRepo] else []
    if round_num = 1 ∧ env.createStatus ≠ 201 ∧ env.createStatus ≠ 422 then
      (.error (), createTr)
    else
      let files := dictInsert files_to_commit "LICENSE" MIT_LICENSE_TEXT
      match commitFiles env.getStatus env.getSha env.putStatus env.putSha files none with
      | (.error _, ctr) => (.error (), createTr ++ ctr)
      | (.ok sha, ctr) =>
        let poll := pollPages env.probeRes 0 12
        (.ok { repo_url := some (repoUrl user repo_name), commit_sha := sha,
               pages_url := some (pagesLiveUrl user repo_name),
               existing_code := none },
         createTr ++ ctr ++ [Ev.enablePages] ++ poll.2)

/-- Outcomes of the one OpenAI API call of generate_app_with_llm in
src/openai_deployer.py, as distinguished by its except clause: an
openai.APIError (which covers transport failures, timeouts and non-success
provider statuses), or a received text whose json.loads result is carried
as parsed (none when the text is not valid JSON). -/
inductive LLMOutcome
  | apiError
  | text (parsed : Option (List (String × String)))

/-- Embeds generate_app_with_llm of src/openai_deployer.py: every outcome
in the except clause (APIError, non-JSON text, and the ValueError raised
when the parsed object lacks index.html or README.md) returns None; only an
object with both keys is returned. -/
def generate_app_with_llm : LLMOutcome → Option (List (String × String))
  | .apiError => none
  | .text none => none
  | .text (some files) =>
    if hasKey files "index.html" && hasKey files "README.md" then
      some files
    else
      none

/-- Behaviour of the external world during one background task of
src/openai_deployer.py. -/
structure World where
  ghPre : GithubEnv
  llm : LLMOutcome
  ghPub : GithubEnv
  cb : Nat → Bool

/-- Embeds process_task_async of src/openai_deployer.py: when round > 1,
call the publisher with pre_fetch_code=True (its own try/except swallows
any error, leaving existing_code = None); call the generator, raising
ValueError when it returned None; call the publisher on the generated files
with pre_fetch_code=False; build the notification payload from the publish
result and notify. The outer try/except converts any raised error into the
fatal log line. -/
def process_task_async (user : String) (t : RequestData) (w : World) :
    TaskState × List Ev :=
  let pre : Option String × List Ev :=
    if t.round > 1 then
      match create_or_update_github_repo user t.task t.round [] true w.ghPre with
      | (.ok d, tr) => (d.existing_code, tr)
      | (.error _, tr) => (none, tr)
    else (none, [])
  match generate_app_with_llm w.llm with
  | none => (.failed, pre.2 ++ [Ev.llmCall, Ev.failedLog])
  | some files =>
    match create_or_update_github_repo user t.task t.round files false w.ghPub with
    | (.error _, tr) => (.failed, pre.2 ++ [Ev.llmCall] ++ tr ++ [Ev.failedLog])
    | (.ok _, tr) => (.done, pre.2 ++ [Ev.llmCall] ++ tr ++ notify_evaluator w.cb)

end OpenAIDeployer

/-- Hosting-platform oracle in which every request succeeds: the stored
markup reads back as old, project creation returns 201, file lookups return
sha s0, every write returns commit c1, every probe returns 200. -/
def okEnv : GithubEnv :=
  { fetchIndex := .ok "old", createStatus := 201,
    getStatus := fun _ => 200, getSha := fun _ => some "s0",
    putStatus := fun _ => 200, putSha := fun _ => "c1",
    probeRes := fun _ => some 200 }

/-- Concrete request used by witnesses. -/
def demoReq : RequestData :=
  { secret := some "s3cret", task := "demo-1", round := 1, brief := "todo app",
    email := "a@b.c", nonce := "n0", evaluation_url := "http://cb" }

theorem countEv_append (e : Ev) (a b : List Ev) :
    countEv e (a ++ b) = countEv e a + countEv e b := by
  induction a with
  | nil => simp [countEv]
  | cons x xs ih => simp [countEv, ih]; omega

theorem countEv_eq_zero_of_not_mem {e : Ev} {tr : List Ev} (h : e ∉ tr) :
    countEv e tr = 0 := by
  induction tr with
  | nil => rfl
  | cons x xs ih =>
    simp only [List.mem_cons, not_or] at h
    have hx : ¬x = e := fun hh => h.1 hh.symm
    simp [countEv, hx, ih h.2]

theorem sleepsOf_append (a b : List Ev) :
    sleepsOf (a ++ b) = sleepsOf a ++ sleepsOf b := by
  induction a with
  | nil => rfl
  | cons x xs ih => cases x <;> simp [sleepsOf, ih]

theorem putFilesOf_append (a b : List Ev) :
    putFilesOf (a ++ b) = putFilesOf a ++ putFilesOf b := by
  induction a with
  | nil => rfl
  | cons x xs ih => cases x <;> simp [putFilesOf, ih]

theorem sleep_mem_of_mem_sleepsOf {x : Nat} {tr : List Ev}
    (h : x ∈ sleepsOf tr) : Ev.sleep x ∈ tr := by
  induction tr with
  | nil => simp [sleepsOf] at h
  | cons ev evs ih =>
    cases ev with
    | sleep n =>
      simp only [sleepsOf, List.mem_cons] at h
      rcases h with h | h
      · subst h; simp
      · exact List.mem_cons_of_mem _ (ih h)
    | _ =>
      simp only [sleepsOf] at h
      exact List.mem_cons_of_mem _ (ih h)

theorem beforeLLM_append_llm {xs : List Ev} (ys : List Ev)
    (h : Ev.llmCall ∉ xs) : beforeLLM (xs ++ Ev.llmCall :: ys) = xs := by
  induction xs with
  | nil => simp [beforeLLM]
  | cons x tl ih =>
    simp only [List.mem_cons, not_or] at h
    cases x <;> simp_all [beforeLLM]

theorem afterLLM_append_llm {xs : List Ev} (ys : List Ev)
    (h : Ev.llmCall ∉ xs) : afterLLM (xs ++ Ev.llmCall :: ys) = ys := by
  induction xs with
  | nil => simp [afterLLM]
  | cons x tl ih =>
    simp only [List.mem_cons, not_or] at h
    cases x <;> simp_all [afterLLM]

theorem commitFiles_events {gs : String → Nat} {gsh : String → Option String}
    {ps : String → Nat} {psh : String → String} {l : List (String × String)}
    {acc : Option String} {e : Ev}
    (h : e ∈ (commitFiles gs gsh ps psh l acc).2) :
    (∃ n, e = Ev.getMeta n) ∨ ∃ n, e = Ev.putFile n := by
  induction l generalizing acc with
  | nil => simp [commitFiles] at h
  | cons p rest ih =>
    obtain ⟨fn, c⟩ := p
    simp only [commitFiles] at h
    split at h
    · simp only [List.mem_cons] at h
      rcases h with h | h | h
      · exact Or.inl ⟨fn, h⟩
      · exact Or.inr ⟨fn, h⟩
      · exact ih h
    · simp only [List.mem_cons, List.not_mem_nil, or_false] at h
      rcases h with h | h
      · exact Or.inl ⟨fn, h⟩
      · exact Or.inr ⟨fn, h⟩

theorem pollPages_events {p : Nat → Option Nat} {i f : Nat} {e : Ev}
    (h : e ∈ (pollPages p i f).2) : e = Ev.probe ∨ e = Ev.sleep 10 := by
  induction f generalizing i with
  | zero => simp [pollPages] at h
  | succ m ih =>
    simp only [pollPages] at h
    split at h
    · simp only [List.mem_singleton] at h
      exact Or.inl h
    · simp only [List.mem_cons] at h
      rcases h with h | h | h
      · exact Or.inl h
      · exact Or.inr h
      · exact ih h

theorem notifyLoop_events {ok : Nat → Bool} {a d f : Nat} {e : Ev}
    (h : e ∈ notifyLoop ok a d f) :
    e = Ev.notifyPost ∨ (∃ n, e = Ev.sleep n) ∨ e = Ev.exhaustLog := by
  induction f generalizing a d with
  | zero => simp [notifyLoop] at h
  | succ m ih =>
    simp only [notifyLoop] at h
    split at h
    · simp only [List.mem_singleton] at h
      exact Or.inl h
    · split at h
      · simp only [List.mem_cons] at h
        rcases h with h | h | h
        · exact Or.inl h
        · exact Or.inr (Or.inl ⟨d, h⟩)
        · exact ih h
      · simp only [List.mem_cons, List.not_mem_nil, or_false] at h
        rcases h with h | h
        · exact Or.inl h
        · exact Or.inr (Or.inr h)

theorem notify_evaluator_events {ok : Nat → Bool} {e : Ev}
    (h : e ∈ notify_evaluator ok) :
    e = Ev.notifyPost ∨ (∃ n, e = Ev.sleep n) ∨ e = Ev.exhaustLog :=
  notifyLoop_events h

theorem pollPages_count_le (p : Nat → Option Nat) (i f : Nat) :
    countEv Ev.probe (pollPages p i f).2 ≤ f := by
  induction f generalizing i with
  | zero => simp [pollPages, countEv]
  | succ m ih =>
    simp only [pollPages]
    split
    · simp [countEv]
    · have := ih (i + 1)
      simp [countEv]
      omega

theorem pollPages_first_success {p : Nat → Option Nat} :
    ∀ {f i k : Nat}, k < f → p (i + k) = some 200 →
      (∀ j, j < k → p (i + j) ≠ some 200) →
      (pollPages p i f).1 = true ∧ countEv Ev.probe (pollPages p i f).2 = k + 1 := by
  intro f
  induction f with
  | zero => intro i k hk; omega
  | succ m ih =>
    intro i k hk hsucc hprev
    by_cases h0 : p i = some 200
    · have hk0 : k = 0 := by
        by_contra hne
        exact hprev 0 (Nat.pos_of_ne_zero hne) (by simpa using h0)
      subst hk0
      simp [pollPages, h0, countEv]
    · have hkpos : k ≠ 0 := by
        intro h; subst h; simp at hsucc; exact h0 hsucc
      have hrec := ih (i := i + 1) (k := k - 1)
        (by omega)
        (by have : i + 1 + (k - 1) = i + k := by omega
            rw [this]; exact hsucc)
        (fun j hj => by
          have : i + 1 + j = i + (j + 1) := by omega
          rw [this]; exact hprev (j + 1) (by omega))
      simp only [pollPages, h0, if_neg h0]
      constructor
      · exact hrec.1
      · simp only [countEv]
        rw [hrec.2]
        simp; omega

theorem pollPages_all_fail {p : Nat → Option Nat} :
    ∀ {f i : Nat}, (∀ j, j < f → p (i + j) ≠ some 200) →
      (pollPages p i f).1 = false ∧ countEv Ev.probe (pollPages p i f).2 = f := by
  intro f
  induction f with
  | zero => intro i _; simp [pollPages, countEv]
  | succ m ih =>
    intro i hall
    have h0 : p i ≠ some 200 := by simpa using hall 0 (by omega)
    have hrec := ih (i := i + 1) (fun j hj => by
      have : i + 1 + j = i + (j + 1) := by omega
      rw [this]; exact hall (j + 1) (by omega))
    simp only [pollPages, if_neg h0]
    refine ⟨hrec.1, ?_⟩
    simp only [countEv]
    rw [hrec.2]
    simp
    omega

theorem notifyLoop_post_pos (ok : Nat → Bool) (a d m : Nat) :
    1 ≤ countEv Ev.notifyPost (notifyLoop ok a d (m + 1)) := by
  simp only [notifyLoop]
  split
  · simp [countEv]
  · split <;> simp [countEv]

theorem notifyLoop_count_le (ok : Nat → Bool) :
    ∀ (f a d : Nat), countEv Ev.notifyPost (notifyLoop ok a d f) ≤ f := by
  intro f
  induction f with
  | zero => intro a d; simp [notifyLoop, countEv]
  | succ m ih =>
    intro a d
    simp only [notifyLoop]
    split
    · simp [countEv]
    · split
      · have := ih (a + 1) (d * 2)
        simp [countEv]
        omega
      · simp [countEv]

theorem notifyLoop_first_success {ok : Nat → Bool} :
    ∀ {f a d k : Nat}, a + f = 5 → k < f → ok (a + k) = true →
      (∀ j, j < k → ok (a + j) = false) →
      countEv Ev.notifyPost (notifyLoop ok a d f) = k + 1 := by
  intro f
  induction f with
  | zero => intro a d k _ hk; omega
  | succ m ih =>
    intro a d k hinv hk hsucc hprev
    by_cases h0 : ok a = true
    · have hk0 : k = 0 := by
        by_contra hne
        have := hprev 0 (Nat.pos_of_ne_zero hne)
        simp at this
        rw [h0] at this
        exact Bool.true_eq_false.mp this
      subst hk0
      simp [notifyLoop, h0, countEv]
    · have h0f : ok a = false := by
        cases hoa : ok a
        · rfl
        · exact absurd hoa h0
      have hkpos : k ≠ 0 := by
        intro h; subst h; simp at hsucc; exact h0 hsucc
      have ha4 : a < 5 - 1 := by omega
      have hrec := ih (a := a + 1) (d := d * 2) (k := k - 1)
        (by omega)
        (by omega)
        (by have : a + 1 + (k - 1) = a + k := by omega
            rw [this]; exact hsucc)
        (fun j hj => by
          have : a + 1 + j = a + (j + 1) := by omega
          rw [this]; exact hprev (j + 1) (by omega))
      simp only [notifyLoop, h0f, Bool.false_eq_true, if_false, if_pos ha4]
      simp only [countEv]
      rw [hrec]
      simp
      omega

theorem notifyLoop_sleeps (ok : Nat → Bool) :
    ∀ (f a d : Nat), a + f = 5 →
      sleepsOf (notifyLoop ok a d f) =
        (List.range (countEv Ev.notifyPost (notifyLoop ok a d f) - 1)).map
          (fun i => d * 2 ^ i) := by
  intro f
  induction f with
  | zero => intro a d _; simp [notifyLoop, sleepsOf, countEv]
  | succ m ih =>
    intro a d hinv
    by_cases h0 : ok a = true
    · simp [notifyLoop, h0, sleepsOf, countEv]
    · have h0f : ok a = false := by
        cases hoa : ok a
        · rfl
        · exact absurd hoa h0
      by_cases ha4 : a < 5 - 1
      · have hm : ∃ m2, m = m2 + 1 := by
          refine ⟨m - 1, ?_⟩; omega
        obtain ⟨m2, hm2⟩ := hm
        have hpos : 1 ≤ countEv Ev.notifyPost (notifyLoop ok (a + 1) (d * 2) m) := by
          rw [hm2]; exact notifyLoop_post_pos ok (a + 1) (d * 2) m2
        have hrec := ih (a + 1) (d * 2) (by omega)
        set c := countEv Ev.notifyPost (notifyLoop ok (a + 1) (d * 2) m) with hc
        simp only [notifyLoop, h0f, Bool.false_eq_true, if_false, if_pos ha4]
        simp only [sleepsOf, countEv, reduceIte]
        rw [hrec]
        have hone : (if Ev.sleep d = Ev.notifyPost then 1 else 0) = 0 := by simp
        rw [hone]
        have hcount : 1 + (0 + c) - 1 = c := by omega
        rw [hcount]
        have hcsucc : c = (c - 1) + 1 := by omega
        have harg : ∀ i : Nat, ((fun i => d * 2 ^ i) ∘ Nat.succ) i = d * 2 * 2 ^ i := by
          intro i
          simp [Function.comp, pow_succ]
          ring
        conv_rhs => rw [hcsucc, List.range_succ_eq_map]
        rw [List.map_cons, List.map_map]
        congr 1
        · simp
        · exact List.map_congr_left (fun i _ => (harg i).symm)
      · simp [notifyLoop, h0f, ha4, sleepsOf, countEv]

theorem notify_evaluator_exhausted {ok : Nat → Bool} (h : ∀ j, j < 5 → ok j = false) :
    notify_evaluator ok =
      [Ev.notifyPost, Ev.sleep 1, Ev.notifyPost, Ev.sleep 2, Ev.notifyPost,
       Ev.sleep 4, Ev.notifyPost, Ev.sleep 8, Ev.notifyPost, Ev.exhaustLog] := by
  have h0 := h 0 (by omega)
  have h1 := h 1 (by omega)
  have h2 := h 2 (by omega)
  have h3 := h 3 (by omega)
  have h4 := h 4 (by omega)
  simp [notify_evaluator, notifyLoop, h0, h1, h2, h3, h4]

theorem commitFiles_ok_putFiles {gs : String → Nat} {gsh : String → Option String}
    {ps : String → Nat} {psh : String → String} :
    ∀ {l : List (String × String)} {acc : Option String} {s : Option String},
      (commitFiles gs gsh ps psh l acc).1 = .ok s →
      putFilesOf (commitFiles gs gsh ps psh l acc).2 = l.map Prod.fst := by
  intro l
  induction l with
  | nil => intro acc s _; simp [commitFiles, putFilesOf]
  | cons p rest ih =>
    intro acc s hok
    obtain ⟨fn, c⟩ := p
    by_cases hps : ps fn = 200 ∨ ps fn = 201
    · simp only [commitFiles, if_pos hps] at hok ⊢
      simp only [putFilesOf]
      rw [ih hok]
      simp
    · simp only [commitFiles, if_neg hps] at hok
      cases hok

theorem lookupKey_dictInsert :
    ∀ (d : List (String × String)) (k v : String),
      lookupKey (dictInsert d k v) k = some v := by
  intro d k v
  induction d with
  | nil => simp [dictInsert, lookupKey]
  | cons p tl ih =>
    by_cases hp : (p.1 == k) = true
    · simp [dictInsert, lookupKey, hp]
    · simp [dictInsert, lookupKey, hp, ih]

theorem mem_map_fst_of_lookupKey {k v : String} :
    ∀ {d : List (String × String)}, lookupKey d k = some v → k ∈ d.map Prod.fst := by
  intro d
  induction d with
  | nil => intro h; cases h
  | cons p tl ih =>
    intro h
    by_cases hp : (p.1 == k) = true
    · have : p.1 = k := by simpa using hp
      simp [this]
    · simp only [lookupKey, hp, Bool.false_eq_true, if_false] at h
      simp [ih h]

theorem mem_map_fst_dictInsert (d : List (String × String)) (k v : String) :
    k ∈ (dictInsert d k v).map Prod.fst :=
  mem_map_fst_of_lookupKey (lookupKey_dictInsert d k v)

theorem appCreate_trace (u r : String) (rnd : Int) (files : List (String × String))
    (env : GithubEnv) :
    (AppBuilder.create_or_update_github_repo u r rnd files env).2 =
      (if rnd > 1 then [Ev.fetchMarkup] else []) ++
      (if rnd = 1 then [Ev.createRepo] else []) ++
      (if rnd = 1 ∧ env.createStatus ≠ 201 ∧ env.createStatus ≠ 422 then []
       else
         (commitFiles env.getStatus env.getSha env.putStatus env.putSha
           (dictInsert files "LICENSE" AppBuilder.MIT_LICENSE_TEXT) none).2 ++
         (match (commitFiles env.getStatus env.getSha env.putStatus env.putSha
             (dictInsert files "LICENSE" AppBuilder.MIT_LICENSE_TEXT) none).1 with
          | .error _ => []
          | .ok _ => Ev.enablePages :: (pollPages env.probeRes 0 12).2)) := by
  rcases hcf : commitFiles env.getStatus env.getSha env.putStatus env.putSha
    (dictInsert files "LICENSE" AppBuilder.MIT_LICENSE_TEXT) none with ⟨res, ctr⟩
  by_cases h1 : rnd = 1
  · have hgt : ¬rnd > 1 := by omega
    by_cases hbad : env.createStatus ≠ 201 ∧ env.createStatus ≠ 422
    · simp [AppBuilder.create_or_update_github_repo, hcf, h1, hgt, hbad]
    · rcases res with u1 | sha <;>
        simp [AppBuilder.create_or_update_github_repo, hcf, h1, hgt, hbad]
  · have hbad : ¬(rnd = 1 ∧ env.createStatus ≠ 201 ∧ env.createStatus ≠ 422) := by
      tauto
    rcases res with u1 | sha <;>
      rcases hfi : env.fetchIndex with u0 | c <;>
      by_cases hgt : rnd > 1 <;>
      simp [AppBuilder.create_or_update_github_repo, hcf, hfi, h1, hgt, hbad]

theorem appCreate_fst (u r : String) (rnd : Int) (files : List (String × String))
    (env : GithubEnv) :
    (AppBuilder.create_or_update_github_repo u r rnd files env).1 =
      (if rnd = 1 ∧ env.createStatus ≠ 201 ∧ env.createStatus ≠ 422 then .error ()
       else
         match (commitFiles env.getStatus env.getSha env.putStatus env.putSha
             (dictInsert files "LICENSE" AppBuilder.MIT_LICENSE_TEXT) none).1 with
         | .error _ => .error ()
         | .ok sha =>
           .ok { repo_url := some (AppBuilder.repoUrl u r), commit_sha := sha,
                 pages_url := some (pagesLiveUrl u r),
                 existing_code :=
                   if rnd > 1 then
                     match env.fetchIndex with
                     | .ok c => some c
                     | .error _ => none
                   else none }) := by
  rcases hcf : commitFiles env.getStatus env.getSha env.putStatus env.putSha
    (dictInsert files "LICENSE" AppBuilder.MIT_LICENSE_TEXT) none with ⟨res, ctr⟩
  by_cases h1 : rnd = 1
  · have hgt : ¬rnd > 1 := by omega
    by_cases hbad : env.createStatus ≠ 201 ∧ env.createStatus ≠ 422
    · simp [AppBuilder.create_or_update_github_repo, hcf, h1, hgt, hbad]
    · rcases res with u1 | sha <;>
        simp [AppBuilder.create_or_update_github_repo, hcf, h1, hgt, hbad]
  · have hbad : ¬(rnd = 1 ∧ env.createStatus ≠ 201 ∧ env.createStatus ≠ 422) := by
      tauto
    rcases res with u1 | sha <;>
      rcases hfi : env.fetchIndex with u0 | c <;>
      by_cases hgt : rnd > 1 <;>
      simp [AppBuilder.create_or_update_github_repo, hcf, hfi, h1, hgt, hbad]

theorem oaiCreate_trace (u r : String) (rnd : Int) (files : List (String × String))
    (pf : Bool) (env : GithubEnv) :
    (OpenAIDeployer.create_or_update_github_repo u r rnd files pf env).2 =
      (if pf then [Ev.fetchMarkup]
       else
         (if rnd = 1 then [Ev.createRepo] else []) ++
         (if rnd = 1 ∧ env.createStatus ≠ 201 ∧ env.createStatus ≠ 422 then []
          else
            (commitFiles env.getStatus env.getSha env.putStatus env.putSha
              (dictInsert files "LICENSE" OpenAIDeployer.MIT_LICENSE_TEXT) none).2 ++
            (match (commitFiles env.getStatus env.getSha env.putStatus env.putSha
                (dictInsert files "LICENSE" OpenAIDeployer.MIT_LICENSE_TEXT) none).1 with
             | .error _ => []
             | .ok _ => Ev.enablePages :: (pollPages env.probeRes 0 12).2))) := by
  rcases hcf : commitFiles env.getStatus env.getSha env.putStatus env.putSha
    (dictInsert files "LICENSE" OpenAIDeployer.MIT_LICENSE_TEXT) none with ⟨res, ctr⟩
  cases pf
  · by_cases hbad : rnd = 1 ∧ env.createStatus ≠ 201 ∧ env.createStatus ≠ 422
    · simp [OpenAIDeployer.create_or_update_github_repo, hcf, hbad]
    · rcases res with u1 | sha <;>
        simp [OpenAIDeployer.create_or_update_github_repo, hcf, hbad]
  · rcases hfi : env.fetchIndex with u0 | c <;>
      simp [OpenAIDeployer.create_or_update_github_repo, hfi]

theorem oaiCreate_fst (u r : String) (rnd : Int) (files : List (String × String))
    (pf : Bool) (env : GithubEnv) :
    (OpenAIDeployer.create_or_update_github_repo u r rnd files pf env).1 =
      (if pf then
         .ok { existing_code :=
                 match env.fetchIndex with
                 | .ok c => some c
                 | .error _ => none }
       else if rnd = 1 ∧ env.createStatus ≠ 201 ∧ env.createStatus ≠ 422 then .error ()
       else
         match (commitFiles env.getStatus env.getSha env.putStatus env.putSha
             (dictInsert files "LICENSE" OpenAIDeployer.MIT_LICENSE_TEXT) none).1 with
         | .error _ => .error ()
         | .ok sha =>
           .ok { repo_url := some (OpenAIDeployer.repoUrl u r), commit_sha := sha,
                 pages_url := some (pagesLiveUrl u r), existing_code := none }) := by
  rcases hcf : commitFiles env.getStatus env.getSha env.putStatus env.putSha
    (dictInsert files "LICENSE" OpenAIDeployer.MIT_LICENSE_TEXT) none with ⟨res, ctr⟩
  cases pf
  · by_cases hbad : rnd = 1 ∧ env.createStatus ≠ 201 ∧ env.createStatus ≠ 422
    · simp [OpenAIDeployer.create_or_update_github_repo, hcf, hbad]
    · rcases res with u1 | sha <;>
        simp [OpenAIDeployer.create_or_update_github_repo, hcf, hbad]
  · rcases hfi : env.fetchIndex with u0 | c <;>
      simp [OpenAIDeployer.create_or_update_github_repo, hfi]

theorem countEv_commitFiles_zero {e : Ev} {gs : String → Nat}
    {gsh : String → Option String} {ps : String → Nat} {psh : String → String}
    {l : List (String × String)} {acc : Option String}
    (h1 : ∀ n, e ≠ Ev.getMeta n) (h2 : ∀ n, e ≠ Ev.putFile n) :
    countEv e (commitFiles gs gsh ps psh l acc).2 = 0 :=
  countEv_eq_zero_of_not_mem (fun hmem => by
    rcases commitFiles_events hmem with ⟨n, hn⟩ | ⟨n, hn⟩
    · exact h1 n hn
    · exact h2 n hn)

theorem countEv_pollPages_zero {e : Ev} {p : Nat → Option Nat} {i f : Nat}
    (h1 : e ≠ Ev.probe) (h2 : e ≠ Ev.sleep 10) :
    countEv e (pollPages p i f).2 = 0 :=
  countEv_eq_zero_of_not_mem (fun hmem => by
    rcases pollPages_events hmem with hn | hn
    · exact h1 hn
    · exact h2 hn)

theorem countEv_notify_zero {e : Ev} {ok : Nat → Bool}
    (h1 : e ≠ Ev.notifyPost) (h2 : ∀ n, e ≠ Ev.sleep n) (h3 : e ≠ Ev.exhaustLog) :
    countEv e (notify_evaluator ok) = 0 :=
  countEv_eq_zero_of_not_mem (fun hmem => by
    rcases notify_evaluator_events hmem with hn | ⟨n, hn⟩ | hn
    · exact h1 hn
    · exact h2 n hn
    · exact h3 hn)

theorem appCreate_events {u r : String} {rnd : Int} {files : List (String × String)}
    {env : GithubEnv} {e : Ev}
    (h : e ∈ (AppBuilder.create_or_update_github_repo u r rnd files env).2) :
    isPublishEv e = true ∨ e = Ev.fetchMarkup ∨ e = Ev.sleep 10 := by
  rw [appCreate_trace] at h
  simp only [List.mem_append] at h
  rcases h with (h | h) | h
  · split at h
    · simp only [List.mem_singleton] at h
      exact Or.inr (Or.inl h)
    · cases h
  · split at h
    · simp only [List.mem_singleton] at h
      subst h
      exact Or.inl rfl
    · cases h
  · split at h
    · cases h
    · simp only [List.mem_append] at h
      rcases h with h | h
      · rcases commitFiles_events h with ⟨n, hn⟩ | ⟨n, hn⟩ <;>
          subst hn <;> exact Or.inl rfl
      · split at h
        · cases h
        · simp only [List.mem_cons] at h
          rcases h with h | h
          · subst h; exact Or.inl rfl
          · rcases pollPages_events h with hn | hn
            · subst hn; exact Or.inl rfl
            · exact Or.inr (Or.inr hn)

theorem oaiCreate_events {u r : String} {rnd : Int} {files : List (String × String)}
    {pf : Bool} {env : GithubEnv} {e : Ev}
    (h : e ∈ (OpenAIDeployer.create_or_update_github_repo u r rnd files pf env).2) :
    isPublishEv e = true ∨ e = Ev.fetchMarkup ∨ e = Ev.sleep 10 := by
  rw [oaiCreate_trace] at h
  split at h
  · simp only [List.mem_singleton] at h
    exact Or.inr (Or.inl h)
  · simp only [List.mem_append] at h
    rcases h with h | h
    · split at h
      · simp only [List.mem_singleton] at h
        subst h
        exact Or.inl rfl
      · cases h
    · split at h
      · cases h
      · simp only [List.mem_append] at h
        rcases h with h | h
        · rcases commitFiles_events h with ⟨n, hn⟩ | ⟨n, hn⟩ <;>
            subst hn <;> exact Or.inl rfl
        · split at h
          · cases h
          · simp only [List.mem_cons] at h
            rcases h with h | h
            · subst h; exact Or.inl rfl
            · rcases pollPages_events h with hn | hn
              · subst hn; exact Or.inl rfl
              · exact Or.inr (Or.inr hn)

theorem appCreate_countEv_zero {u r : String} {rnd : Int}
    {files : List (String × String)} {env : GithubEnv} {e : Ev}
    (h1 : isPublishEv e = false) (h2 : e ≠ Ev.fetchMarkup) (h3 : e ≠ Ev.sleep 10) :
    countEv e (AppBuilder.create_or_update_github_repo u r rnd files env).2 = 0 :=
  countEv_eq_zero_of_not_mem (fun hmem => by
    rcases appCreate_events hmem with hn | hn | hn
    · rw [hn] at h1; cases h1
    · exact h2 hn
    · exact h3 hn)

theorem oaiCreate_countEv_zero {u r : String} {rnd : Int}
    {files : List (String × String)} {pf : Bool} {env : GithubEnv} {e : Ev}
    (h1 : isPublishEv e = false) (h2 : e ≠ Ev.fetchMarkup) (h3 : e ≠ Ev.sleep 10) :
    countEv e (OpenAIDeployer.create_or_update_github_repo u r rnd files pf env).2 = 0 :=
  countEv_eq_zero_of_not_mem (fun hmem => by
    rcases oaiCreate_events hmem with hn | hn | hn
    · rw [hn] at h1; cases h1
    · exact h2 hn
    · exact h3 hn)

theorem appCreate_fetch_count (u r : String) (rnd : Int)
    (files : List (String × String)) (env : GithubEnv) :
    countEv Ev.fetchMarkup (AppBuilder.create_or_update_github_repo u r rnd files env).2 =
      if rnd > 1 then 1 else 0 := by
  have hcommit : countEv Ev.fetchMarkup (commitFiles env.getStatus env.getSha
      env.putStatus env.putSha (dictInsert files "LICENSE" AppBuilder.MIT_LICENSE_TEXT)
      none).2 = 0 :=
    countEv_commitFiles_zero (by intro n h; cases h) (by intro n h; cases h)
  have hpoll : countEv Ev.fetchMarkup (pollPages env.probeRes 0 12).2 = 0 :=
    countEv_pollPages_zero (by intro h; cases h) (by intro h; cases h)
  rw [appCreate_trace]
  rw [countEv_append, countEv_append]
  have e1 : countEv Ev.fetchMarkup (if rnd > 1 then [Ev.fetchMarkup] else []) =
      if rnd > 1 then 1 else 0 := by
    split <;> simp [countEv]
  have e2 : countEv Ev.fetchMarkup (if rnd = 1 then [Ev.createRepo] else []) = 0 := by
    split <;> simp [countEv]
  have e3 : countEv Ev.fetchMarkup
      (if rnd = 1 ∧ env.createStatus ≠ 201 ∧ env.createStatus ≠ 422 then []
       else
         (commitFiles env.getStatus env.getSha env.putStatus env.putSha
           (dictInsert files "LICENSE" AppBuilder.MIT_LICENSE_TEXT) none).2 ++
         (match (commitFiles env.getStatus env.getSha env.putStatus env.putSha
             (dictInsert files "LICENSE" AppBuilder.MIT_LICENSE_TEXT) none).1 with
          | .error _ => []
          | .ok _ => Ev.enablePages :: (pollPages env.probeRes 0 12).2)) = 0 := by
    split
    · simp [countEv]
    · rw [countEv_append, hcommit]
      split
      · simp [countEv]
      · simp [countEv, hpoll]
  rw [e1, e2, e3]
  omega

theorem oaiCreate_prefetch_trace (u r : String) (rnd : Int)
    (files : List (String × String)) (env : GithubEnv) :
    (OpenAIDeployer.create_or_update_github_repo u r rnd files true env).2 =
      [Ev.fetchMarkup] := by
  rw [oaiCreate_trace]
  simp

theorem oaiCreate_pub_fetch_zero (u r : String) (rnd : Int)
    (files : List (String × String)) (env : GithubEnv) :
    countEv Ev.fetchMarkup
      (OpenAIDeployer.create_or_update_github_repo u r rnd files false env).2 = 0 := by
  have hcommit : countEv Ev.fetchMarkup (commitFiles env.getStatus env.getSha
      env.putStatus env.putSha (dictInsert files "LICENSE" OpenAIDeployer.MIT_LICENSE_TEXT)
      none).2 = 0 :=
    countEv_commitFiles_zero (by intro n h; cases h) (by intro n h; cases h)
  have hpoll : countEv Ev.fetchMarkup (pollPages env.probeRes 0 12).2 = 0 :=
    countEv_pollPages_zero (by intro h; cases h) (by intro h; cases h)
  rw [oaiCreate_trace]
  simp only [Bool.false_eq_true, if_false]
  rw [countEv_append]
  have e2 : countEv Ev.fetchMarkup (if rnd = 1 then [Ev.createRepo] else []) = 0 := by
    split <;> simp [countEv]
  rw [e2]
  split
  · simp [countEv]
  · rw [countEv_append, hcommit]
    split
    · simp [countEv]
    · simp [countEv, hpoll]

theorem appProcess_fst (user : String) (t : RequestData) (w : AppBuilder.World) :
    (AppBuilder.process_task_async user t w).1 =
      (match AppBuilder.generate_app_with_llm w.llm with
       | none => TaskState.failed
       | some files =>
         match (AppBuilder.create_or_update_github_repo user t.task t.round files
             w.ghPub).1 with
         | .error _ => TaskState.failed
         | .ok _ => TaskState.done) := by
  unfold AppBuilder.process_task_async
  by_cases hr : t.round > 1
  · rcases hpre : AppBuilder.create_or_update_github_repo user t.task t.round [] w.ghPre
      with ⟨resP, trP⟩
    rcases hg : AppBuilder.generate_app_with_llm w.llm with _ | files
    · rcases resP with uP | dP <;> simp [hr, hpre, hg]
    · rcases hpub : AppBuilder.create_or_update_github_repo user t.task t.round files
        w.ghPub with ⟨res2, tr2⟩
      rcases resP with uP | dP <;> rcases res2 with u2 | d2 <;>
        simp [hr, hpre, hg, hpub]
  · rcases hg : AppBuilder.generate_app_with_llm w.llm with _ | files
    · simp [hr, hg]
    · rcases hpub : AppBuilder.create_or_update_github_repo user t.task t.round files
        w.ghPub with ⟨res2, tr2⟩
      rcases res2 with u2 | d2 <;> simp [hr, hg, hpub]

theorem appProcess_trace (user : String) (t : RequestData) (w : AppBuilder.World) :
    (AppBuilder.process_task_async user t w).2 =
      (if t.round > 1 then
        (AppBuilder.create_or_update_github_repo user t.task t.round [] w.ghPre).2
       else []) ++ [Ev.llmCall] ++
      (match AppBuilder.generate_app_with_llm w.llm with
       | none => [Ev.failedLog]
       | some files =>
         (AppBuilder.create_or_update_github_repo user t.task t.round files w.ghPub).2 ++
         (match (AppBuilder.create_or_update_github_repo user t.task t.round files
             w.ghPub).1 with
          | .error _ => [Ev.failedLog]
          | .ok _ => notify_evaluator w.cb)) := by
  unfold AppBuilder.process_task_async
  by_cases hr : t.round > 1
  · rcases hpre : AppBuilder.create_or_update_github_repo user t.task t.round [] w.ghPre
      with ⟨resP, trP⟩
    rcases hg : AppBuilder.generate_app_with_llm w.llm with _ | files
    · rcases resP with uP | dP <;> simp [hr, hpre, hg]
    · rcases hpub : AppBuilder.create_or_update_github_repo user t.task t.round files
        w.ghPub with ⟨res2, tr2⟩
      rcases resP with uP | dP <;> rcases res2 with u2 | d2 <;>
        simp [hr, hpre, hg, hpub]
  · rcases hg : AppBuilder.generate_app_with_llm w.llm with _ | files
    · simp [hr, hg]
    · rcases hpub : AppBuilder.create_or_update_github_repo user t.task t.round files
        w.ghPub with ⟨res2, tr2⟩
      rcases res2 with u2 | d2 <;> simp [hr, hg, hpub]

theorem oaiProcess_fst (user : String) (t : RequestData) (w : OpenAIDeployer.World) :
    (OpenAIDeployer.process_task_async user t w).1 =
      (match OpenAIDeployer.generate_app_with_llm w.llm with
       | none => TaskState.failed
       | some files =>
         match (OpenAIDeployer.create_or_update_github_repo user t.task t.round files
             false w.ghPub).1 with
         | .error _ => TaskState.failed
         | .ok _ => TaskState.done) := by
  unfold OpenAIDeployer.process_task_async
  by_cases hr : t.round > 1
  · rcases hpre : OpenAIDeployer.create_or_update_github_repo user t.task t.round []
      true w.ghPre with ⟨resP, trP⟩
    rcases hg : OpenAIDeployer.generate_app_with_llm w.llm with _ | files
    · rcases resP with uP | dP <;> simp [hr, hpre, hg]
    · rcases hpub : OpenAIDeployer.create_or_update_github_repo user t.task t.round files
        false w.ghPub with ⟨res2, tr2⟩
      rcases resP with uP | dP <;> rcases res2 with u2 | d2 <;>
        simp [hr, hpre, hg, hpub]
  · rcases hg : OpenAIDeployer.generate_app_with_llm w.llm with _ | files
    · simp [hr, hg]
    · rcases hpub : OpenAIDeployer.create_or_update_github_repo user t.task t.round files
        false w.ghPub with ⟨res2, tr2⟩
      rcases res2 with u2 | d2 <;> simp [hr, hg, hpub]

theorem oaiProcess_trace (user : String) (t : RequestData) (w : OpenAIDeployer.World) :
    (OpenAIDeployer.process_task_async user t w).2 =
      (if t.round > 1 then
        (OpenAIDeployer.create_or_update_github_repo user t.task t.round [] true
          w.ghPre).2
       else []) ++ [Ev.llmCall] ++
      (match OpenAIDeployer.generate_app_with_llm w.llm with
       | none => [Ev.failedLog]
       | some files =>
         (OpenAIDeployer.create_or_update_github_repo user t.task t.round files false
           w.ghPub).2 ++
         (match (OpenAIDeployer.create_or_update_github_repo user t.task t.round files
             false w.ghPub).1 with
          | .error _ => [Ev.failedLog]
          | .ok _ => notify_evaluator w.cb)) := by
  unfold OpenAIDeployer.process_task_async
  by_cases hr : t.round > 1
  · rcases hpre : OpenAIDeployer.create_or_update_github_repo user t.task t.round []
      true w.ghPre with ⟨resP, trP⟩
    rcases hg : OpenAIDeployer.generate_app_with_llm w.llm with _ | files
    · rcases resP with uP | dP <;> simp [hr, hpre, hg]
    · rcases hpub : OpenAIDeployer.create_or_update_github_repo user t.task t.round files
        false w.ghPub with ⟨res2, tr2⟩
      rcases resP with uP | dP <;> rcases res2 with u2 | d2 <;>
        simp [hr, hpre, hg, hpub]
  · rcases hg : OpenAIDeployer.generate_app_with_llm w.llm with _ | files
    · simp [hr, hg]
    · rcases hpub : OpenAIDeployer.create_or_update_github_repo user t.task t.round files
        false w.ghPub with ⟨res2, tr2⟩
      rcases res2 with u2 | d2 <;> simp [hr, hg, hpub]

theorem failedLog_not_mem_appCreate {u r : String} {rnd : Int}
    {files : List (String × String)} {env : GithubEnv} :
    Ev.failedLog ∉ (AppBuilder.create_or_update_github_repo u r rnd files env).2 :=
  fun h => by rcases appCreate_events h with h | h | h <;> simp [isPublishEv] at h

theorem failedLog_not_mem_oaiCreate {u r : String} {rnd : Int}
    {files : List (String × String)} {pf : Bool} {env : GithubEnv} :
    Ev.failedLog ∉ (OpenAIDeployer.create_or_update_github_repo u r rnd files pf env).2 :=
  fun h => by rcases oaiCreate_events h with h | h | h <;> simp [isPublishEv] at h

theorem failedLog_not_mem_notify {ok : Nat → Bool} :
    Ev.failedLog ∉ notify_evaluator ok :=
  fun h => by rcases notify_evaluator_events h with h | ⟨n, h⟩ | h <;> cases h

theorem llm_not_mem_appCreate {u r : String} {rnd : Int}
    {files : List (String × String)} {env : GithubEnv} :
    Ev.llmCall ∉ (AppBuilder.create_or_update_github_repo u r rnd files env).2 :=
  fun h => by rcases appCreate_events h with h | h | h <;> simp [isPublishEv] at h

theorem llm_not_mem_oaiCreate {u r : String} {rnd : Int}
    {files : List (String × String)} {pf : Bool} {env : GithubEnv} :
    Ev.llmCall ∉ (OpenAIDeployer.create_or_update_github_repo u r rnd files pf env).2 :=
  fun h => by rcases oaiCreate_events h with h | h | h <;> simp [isPublishEv] at h

/-- C10: when the process-wide configured secret is empty (falsy), the gateway
rejects every inbound request with 401 and spawns no worker, including a
request whose secret field equals that empty configured value: the guard
tests not MY_SECRET before comparing, so authentication fails closed. -/
theorem C10_empty_secret_fails_closed (req : RequestData)
    (worker : RequestData → TaskState × List Ev) :
    handle_request "" req worker =
      { status := 401, body := unauthorizedBody, workerSpawned := false,
        workerTrace := [] } ∧
    handle_request "" { req with secret := some "" } worker =
      { status := 401, body := unauthorizedBody, workerSpawned := false,
        workerTrace := [] } := by
  constructor <;> simp [handle_request]

/-- C1: for every inbound POST to the api endpoint, a missing or mismatched
secret yields a 401 response with the unauthorized body and no background
worker (empty worker trace, nothing downstream); a matching secret, under
the startup invariant that the configured secret is nonempty, yields 200
with the acknowledgment body, spawns the worker, and the response status
and body are the same for every worker behaviour, embedding that the
response is returned before (independently of) the background work. The
final conjunct ties the nonemptiness hypothesis to the startup environment
check, which refuses to start the process with a falsy MY_SECRET. -/
theorem C1_gateway_auth (MY_SECRET : String) (req : RequestData)
    (worker : RequestData → TaskState × List Ev) (hs : MY_SECRET ≠ "") :
    ((req.secret = none ∨ req.secret ≠ some MY_SECRET) →
       handle_request MY_SECRET req worker =
         { status := 401, body := unauthorizedBody, workerSpawned := false,
           workerTrace := [] }) ∧
    (req.secret = some MY_SECRET →
       (handle_request MY_SECRET req worker).status = 200 ∧
       (handle_request MY_SECRET req worker).body = acceptedBody ∧
       (handle_request MY_SECRET req worker).workerSpawned = true ∧
       ∀ worker2 : RequestData → TaskState × List Ev,
         (handle_request MY_SECRET req worker2).status =
           (handle_request MY_SECRET req worker).status ∧
         (handle_request MY_SECRET req worker2).body =
           (handle_request MY_SECRET req worker).body) ∧
    (∀ env : String → Option String,
       check_environment_variables env
         ["MY_SECRET", "GITHUB_TOKEN", "GITHUB_USERNAME"] = true →
       env "MY_SECRET" = some MY_SECRET → MY_SECRET ≠ "") := by
  refine ⟨?_, ?_, ?_⟩
  · intro h
    have hcond : MY_SECRET = "" ∨ req.secret ≠ some MY_SECRET := by
      rcases h with h | h
      · exact Or.inr (by rw [h]; intro hc; cases hc)
      · exact Or.inr h
    simp [handle_request, hcond]
  · intro hsec
    have hcond : ¬(MY_SECRET = "" ∨ req.secret ≠ some MY_SECRET) := by
      intro h
      rcases h with h | h
      · exact hs h
      · exact h hsec
    refine ⟨?_, ?_, ?_, ?_⟩ <;> simp [handle_request, hcond]
  · intro env hc hv
    simp only [check_environment_variables, List.all_cons, Bool.and_eq_true] at hc
    rw [hv] at hc
    simpa using hc.1

/-- C9: the background orchestrator never raises: for both variants, for
every task input and every behaviour of the generator, hosting platform
and callback, the worker is a total function whose final state is FAILED
exactly when the top-level handler wrote the fatal log line, so every
internal error is converted to a log entry and the worker returns
normally; and the gateway only ever answers 401 or 200, so nothing from
the background workflow escapes to any HTTP caller. -/
theorem C9_worker_never_raises :
    (∀ (user : String) (t : RequestData) (w : AppBuilder.World),
       ((AppBuilder.process_task_async user t w).1 = TaskState.failed ↔
         Ev.failedLog ∈ (AppBuilder.process_task_async user t w).2)) ∧
    (∀ (user : String) (t : RequestData) (w : OpenAIDeployer.World),
       ((OpenAIDeployer.process_task_async user t w).1 = TaskState.failed ↔
         Ev.failedLog ∈ (OpenAIDeployer.process_task_async user t w).2)) ∧
    (∀ (MY_SECRET : String) (req : RequestData)
       (worker : RequestData → TaskState × List Ev),
       (handle_request MY_SECRET req worker).status = 401 ∨
         (handle_request MY_SECRET req worker).status = 200) := by
  refine ⟨?_, ?_, ?_⟩
  · intro user t w
    rw [appProcess_fst, appProcess_trace]
    rcases hg : AppBuilder.generate_app_with_llm w.llm with _ | files
    · simp [hg]
    · rcases hres : (AppBuilder.create_or_update_github_repo user t.task t.round files
        w.ghPub).1 with u2 | d2
      · simp [hg, hres]
      · simp only [hg, hres]
        constructor
        · intro hcontra; exact absurd hcontra (by decide)
        · intro hmem
          exfalso
          rcases List.mem_append.mp hmem with hmem1 | hmem2
          · rcases List.mem_append.mp hmem1 with hmem3 | hmem4
            · by_cases hr : t.round > 1
              · rw [if_pos hr] at hmem3
                exact failedLog_not_mem_appCreate hmem3
              · rw [if_neg hr] at hmem3
                cases hmem3
            · simp at hmem4
          · rcases List.mem_append.mp hmem2 with hmem3 | hmem4
            · exact failedLog_not_mem_appCreate hmem3
            · exact failedLog_not_mem_notify hmem4
  · intro user t w
    rw [oaiProcess_fst, oaiProcess_trace]
    rcases hg : OpenAIDeployer.generate_app_with_llm w.llm with _ | files
    · simp [hg]
    · rcases hres : (OpenAIDeployer.create_or_update_github_repo user t.task t.round files
        false w.ghPub).1 with u2 | d2
      · simp [hg, hres]
      · simp only [hg, hres]
        constructor
        · intro hcontra; exact absurd hcontra (by decide)
        · intro hmem
          exfalso
          rcases List.mem_append.mp hmem with hmem1 | hmem2
          · rcases List.mem_append.mp hmem1 with hmem3 | hmem4
            · by_cases hr : t.round > 1
              · rw [if_pos hr] at hmem3
                exact failedLog_not_mem_oaiCreate hmem3
              · rw [if_neg hr] at hmem3
                cases hmem3
            · simp at hmem4
          · rcases List.mem_append.mp hmem2 with hmem3 | hmem4
            · exact failedLog_not_mem_oaiCreate hmem3
            · exact failedLog_not_mem_notify hmem4
  · intro MY_SECRET req worker
    by_cases h : MY_SECRET = "" ∨ req.secret ≠ some MY_SECRET
    · exact Or.inl (by simp [handle_request, h])
    · exact Or.inr (by simp [handle_request, h])

/-- C5 counterexample: with a callback that fails every attempt, all five
delivery attempts happen but only four waits occur, of 1, 2, 4 and 8
time-units; no wait of 16 time-units ever occurs, contradicting the claimed
wait sequence (1, 2, 4, 8, 16): the delay variable is doubled to 16 only
after the fourth wait, and no wait follows the fifth, final attempt. -/
theorem C5_counterexample :
    sleepsOf (notify_evaluator (fun _ => false)) = [1, 2, 4, 8] ∧
    Ev.sleep 16 ∉ notify_evaluator (fun _ => false) ∧
    countEv Ev.notifyPost (notify_evaluator (fun _ => false)) = 5 := by
  decide

/-- C5 amended: the notifier performs at most 5 delivery attempts, stopping
on the first success; between consecutive failed attempts it waits a
strictly doubling delay starting at 1 time-unit (so the waits are
1, 2, 4, 8 — at most four waits, the doubled value 16 never being waited
because no wait follows the final attempt); and after the final failed
attempt it logs exhaustion and returns without raising, for every behaviour
of the callback endpoint (the embedding is a total function). -/
theorem C5_amended :
    (∀ ok : Nat → Bool, countEv Ev.notifyPost (notify_evaluator ok) ≤ 5) ∧
    (∀ (ok : Nat → Bool) (k : Nat), k < 5 → ok k = true →
       (∀ j, j < k → ok j = false) →
       countEv Ev.notifyPost (notify_evaluator ok) = k + 1) ∧
    (∀ ok : Nat → Bool,
       sleepsOf (notify_evaluator ok) =
         (List.range (countEv Ev.notifyPost (notify_evaluator ok) - 1)).map
           (fun i => 2 ^ i)) ∧
    (∀ ok : Nat → Bool, (∀ j, j < 5 → ok j = false) →
       notify_evaluator ok =
         [Ev.notifyPost, Ev.sleep 1, Ev.notifyPost, Ev.sleep 2, Ev.notifyPost,
          Ev.sleep 4, Ev.notifyPost, Ev.sleep 8, Ev.notifyPost, Ev.exhaustLog]) := by
  refine ⟨?_, ?_, ?_, ?_⟩
  · intro ok
    exact notifyLoop_count_le ok 5 0 1
  · intro ok k hk hs hprev
    exact notifyLoop_first_success (f := 5) (a := 0) (d := 1) (k := k) rfl hk
      (by simpa using hs) (fun j hj => by simpa using hprev j hj)
  · intro ok
    have h := notifyLoop_sleeps ok 5 0 1 rfl
    unfold notify_evaluator
    rw [h]
    exact List.map_congr_left (fun i _ => one_mul _)
  · intro ok h
    exact notify_evaluator_exhausted h

/-- C5 amended witness: the amended theorem applied to a callback that
succeeds on the third attempt (index 2): exactly three posts occur. -/
theorem C5_amended_witness :
    (2 < 5 ∧ ((fun i : Nat => i == 2) 2) = true ∧
      (∀ j, j < 2 → ((fun i : Nat => i == 2) j) = false)) ∧
    countEv Ev.notifyPost (notify_evaluator (fun i : Nat => i == 2)) = 2 + 1 :=
  ⟨⟨by decide, by decide, by decide⟩,
   C5_amended.2.1 (fun i : Nat => i == 2) 2 (by decide) (by decide) (by decide)⟩

/-- C6: the hosting-probe loop performs at most 12 existence checks, every
wait between checks is the fixed 10 time-units, it stops on the first
success (success on the first probe with index k below the bound yields
exactly k+1 probes), exhausting all 12 probes yields no exception but a
normal return, and, in publish mode for both variants, the publish result
is independent of the probe outcomes, performs at most 12 probes in its
whole trace, and carries repository and hosted-page URLs computed only
from the account name and the task identifier. -/
theorem C6_probe_loop_bounded :
    (∀ p : Nat → Option Nat, countEv Ev.probe (pollPages p 0 12).2 ≤ 12) ∧
    (∀ (p : Nat → Option Nat) (x : Nat), x ∈ sleepsOf (pollPages p 0 12).2 → x = 10) ∧
    (∀ (p : Nat → Option Nat) (k : Nat), k < 12 → p k = some 200 →
       (∀ j, j < k → p j ≠ some 200) →
       (pollPages p 0 12).1 = true ∧ countEv Ev.probe (pollPages p 0 12).2 = k + 1) ∧
    (∀ p : Nat → Option Nat, (∀ j, j < 12 → p j ≠ some 200) →
       (pollPages p 0 12).1 = false ∧ countEv Ev.probe (pollPages p 0 12).2 = 12) ∧
    (∀ (u r : String) (rnd : Int) (files : List (String × String)) (env : GithubEnv)
       (p q : Nat → Option Nat),
       (AppBuilder.create_or_update_github_repo u r rnd files
           { env with probeRes := p }).1 =
         (AppBuilder.create_or_update_github_repo u r rnd files
           { env with probeRes := q }).1 ∧
       countEv Ev.probe
         (AppBuilder.create_or_update_github_repo u r rnd files env).2 ≤ 12 ∧
       (∀ d, (AppBuilder.create_or_update_github_repo u r rnd files env).1 = .ok d →
          d.repo_url = some (AppBuilder.repoUrl u r) ∧
          d.pages_url = some (pagesLiveUrl u r))) ∧
    (∀ (u r : String) (rnd : Int) (files : List (String × String)) (env : GithubEnv)
       (p q : Nat → Option Nat),
       (OpenAIDeployer.create_or_update_github_repo u r rnd files false
           { env with probeRes := p }).1 =
         (OpenAIDeployer.create_or_update_github_repo u r rnd files false
           { env with probeRes := q }).1 ∧
       countEv Ev.probe
         (OpenAIDeployer.create_or_update_github_repo u r rnd files false env).2 ≤ 12 ∧
       (∀ d, (OpenAIDeployer.create_or_update_github_repo u r rnd files false
           env).1 = .ok d →
          d.repo_url = some (OpenAIDeployer.repoUrl u r) ∧
          d.pages_url = some (pagesLiveUrl u r))) := by
  refine ⟨?_, ?_, ?_, ?_, ?_, ?_⟩
  · intro p
    exact pollPages_count_le p 0 12
  · intro p x hx
    have hmem := sleep_mem_of_mem_sleepsOf hx
    rcases pollPages_events hmem with h | h
    · simp at h
    · simpa using h
  · intro p k hk hs hprev
    exact pollPages_first_success (f := 12) (i := 0) (k := k) hk
      (by simpa using hs) (fun j hj => by simpa using hprev j hj)
  · intro p hall
    exact pollPages_all_fail (f := 12) (i := 0) (fun j hj => by simpa using hall j hj)
  · intro u r rnd files env p q
    refine ⟨?_, ?_, ?_⟩
    · rw [appCreate_fst, appCreate_fst]
    · rw [appCreate_trace, countEv_append, countEv_append]
      have e1 : countEv Ev.probe (if rnd > 1 then [Ev.fetchMarkup] else []) = 0 := by
        split <;> simp [countEv]
      have e2 : countEv Ev.probe (if rnd = 1 then [Ev.createRepo] else []) = 0 := by
        split <;> simp [countEv]
      rw [e1, e2]
      split
      · simp [countEv]
      · rw [countEv_append,
          countEv_commitFiles_zero (by intro n h; cases h) (by intro n h; cases h)]
        split
        · simp [countEv]
        · have hp := pollPages_count_le env.probeRes 0 12
          simp [countEv]
          omega
    · intro d hok
      rw [appCreate_fst] at hok
      by_cases hbad : rnd = 1 ∧ env.createStatus ≠ 201 ∧ env.createStatus ≠ 422
      · rw [if_pos hbad] at hok; cases hok
      · rw [if_neg hbad] at hok
        rcases hcm : (commitFiles env.getStatus env.getSha env.putStatus env.putSha
          (dictInsert files "LICENSE" AppBuilder.MIT_LICENSE_TEXT) none).1 with u1 | sha
        · rw [hcm] at hok; cases hok
        · rw [hcm] at hok
          injection hok with h
          subst h
          exact ⟨rfl, rfl⟩
  · intro u r rnd files env p q
    refine ⟨?_, ?_, ?_⟩
    · rw [oaiCreate_fst, oaiCreate_fst]
    · rw [oaiCreate_trace]
      simp only [Bool.false_eq_true, if_false]
      rw [countEv_append]
      have e2 : countEv Ev.probe (if rnd = 1 then [Ev.createRepo] else []) = 0 := by
        split <;> simp [countEv]
      rw [e2]
      split
      · simp [countEv]
      · rw [countEv_append,
          countEv_commitFiles_zero (by intro n h; cases h) (by intro n h; cases h)]
        split
        · simp [countEv]
        · have hp := pollPages_count_le env.probeRes 0 12
          simp [countEv]
          omega
    · intro d hok
      rw [oaiCreate_fst] at hok
      simp only [Bool.false_eq_true, if_false] at hok
      by_cases hbad : rnd = 1 ∧ env.createStatus ≠ 201 ∧ env.createStatus ≠ 422
      · rw [if_pos hbad] at hok; cases hok
      · rw [if_neg hbad] at hok
        rcases hcm : (commitFiles env.getStatus env.getSha env.putStatus env.putSha
          (dictInsert files "LICENSE" OpenAIDeployer.MIT_LICENSE_TEXT) none).1
          with u1 | sha
        · rw [hcm] at hok; cases hok
        · rw [hcm] at hok
          injection hok with h
          subst h
          exact ⟨rfl, rfl⟩

/-- C6 witness: the probe-loop theorem applied to a probe oracle that
succeeds on the fourth check (index 3), and the publish clause applied to
the all-success oracle, with all hypotheses discharged. -/
theorem C6_probe_loop_bounded_witness :
    (3 < 12 ∧ (fun i : Nat => if i == 3 then some 200 else some 404) 3 = some 200 ∧
      (∀ j, j < 3 →
        (fun i : Nat => if i == 3 then some 200 else some 404) j ≠ some 200)) ∧
    (pollPages (fun i : Nat => if i == 3 then some 200 else some 404) 0 12).1 = true ∧
    countEv Ev.probe
      (pollPages (fun i : Nat => if i == 3 then some 200 else some 404) 0 12).2 = 3 + 1 :=
  ⟨⟨by decide, by decide, by decide⟩,
   C6_probe_loop_bounded.2.2.1 (fun i : Nat => if i == 3 then some 200 else some 404) 3
     (by decide) (by decide) (by decide)⟩

/-- Hosting-platform oracle equal to okEnv except that project creation
returns status 500. -/
def badCreateEnv : GithubEnv := { okEnv with createStatus := 500 }

/-- Concrete world in which generation succeeds and the publish call hits
the failing create. -/
def appWorldBadCreate : AppBuilder.World :=
  { ghPre := okEnv, llm := .text (some [("index.html", "a"), ("README.md", "b")]),
    ghPub := badCreateEnv, cb := fun _ => true }

/-- Concrete world for the openai variant with a failing create. -/
def oaiWorldBadCreate : OpenAIDeployer.World :=
  { ghPre := okEnv, llm := .text (some [("index.html", "a"), ("README.md", "b")]),
    ghPub := badCreateEnv, cb := fun _ => true }

/-- C7: for a round-1 publish in either variant, a create answered with 422
(name already exists) leaves the whole publisher call identical to one
answered with 201 (fresh creation), so the publish workflow proceeds; any
other create status makes the publisher raise immediately with only the
create request in its trace, and, at orchestrator level, makes the whole
task end FAILED after the generation call and the create request. -/
theorem C7_already_exists_idempotent :
    (∀ (u r : String) (files : List (String × String)) (env : GithubEnv),
       AppBuilder.create_or_update_github_repo u r 1 files
           { env with createStatus := 422 } =
         AppBuilder.create_or_update_github_repo u r 1 files
           { env with createStatus := 201 }) ∧
    (∀ (u r : String) (files : List (String × String)) (env : GithubEnv) (cs : Nat),
       cs ≠ 201 → cs ≠ 422 →
       AppBuilder.create_or_update_github_repo u r 1 files
           { env with createStatus := cs } = (.error (), [Ev.createRepo])) ∧
    (∀ (u r : String) (files : List (String × String)) (env : GithubEnv),
       OpenAIDeployer.create_or_update_github_repo u r 1 files false
           { env with createStatus := 422 } =
         OpenAIDeployer.create_or_update_github_repo u r 1 files false
           { env with createStatus := 201 }) ∧
    (∀ (u r : String) (files : List (String × String)) (env : GithubEnv) (cs : Nat),
       cs ≠ 201 → cs ≠ 422 →
       OpenAIDeployer.create_or_update_github_repo u r 1 files false
           { env with createStatus := cs } = (.error (), [Ev.createRepo])) ∧
    (∀ (user : String) (t : RequestData) (w : AppBuilder.World)
       (fs : List (String × String)), t.round = 1 →
       AppBuilder.generate_app_with_llm w.llm = some fs →
       w.ghPub.createStatus ≠ 201 → w.ghPub.createStatus ≠ 422 →
       AppBuilder.process_task_async user t w =
         (TaskState.failed, [Ev.llmCall, Ev.createRepo, Ev.failedLog])) ∧
    (∀ (user : String) (t : RequestData) (w : OpenAIDeployer.World)
       (fs : List (String × String)), t.round = 1 →
       OpenAIDeployer.generate_app_with_llm w.llm = some fs →
       w.ghPub.createStatus ≠ 201 → w.ghPub.createStatus ≠ 422 →
       OpenAIDeployer.process_task_async user t w =
         (TaskState.failed, [Ev.llmCall, Ev.createRepo, Ev.failedLog])) := by
  refine ⟨?_, ?_, ?_, ?_, ?_, ?_⟩
  · intro u r files env
    refine Prod.ext_iff.mpr ⟨?_, ?_⟩
    · rw [appCreate_fst, appCreate_fst]; simp
    · rw [appCreate_trace, appCreate_trace]; simp
  · intro u r files env cs h201 h422
    refine Prod.ext_iff.mpr ⟨?_, ?_⟩
    · rw [appCreate_fst]; simp [h201, h422]
    · rw [appCreate_trace]; simp [h201, h422]
  · intro u r files env
    refine Prod.ext_iff.mpr ⟨?_, ?_⟩
    · rw [oaiCreate_fst, oaiCreate_fst]; simp
    · rw [oaiCreate_trace, oaiCreate_trace]; simp
  · intro u r files env cs h201 h422
    refine Prod.ext_iff.mpr ⟨?_, ?_⟩
    · rw [oaiCreate_fst]; simp [h201, h422]
    · rw [oaiCreate_trace]; simp [h201, h422]
  · intro user t w fs hr hg h201 h422
    refine Prod.ext_iff.mpr ⟨?_, ?_⟩
    · rw [appProcess_fst]
      simp [hg, appCreate_fst, hr, h201, h422]
    · rw [appProcess_trace]
      simp [hg, appCreate_trace, appCreate_fst, hr, h201, h422]
  · intro user t w fs hr hg h201 h422
    refine Prod.ext_iff.mpr ⟨?_, ?_⟩
    · rw [oaiProcess_fst]
      simp [hg, oaiCreate_fst, hr, h201, h422]
    · rw [oaiProcess_trace]
      simp [hg, oaiCreate_trace, oaiCreate_fst, hr, h201, h422]

/-- C7 witness: the orchestrator clause applied to a concrete round-1 task
whose publish call gets creation status 500: the task fails right after the
generation call and the create request. -/
theorem C7_already_exists_idempotent_witness :
    (demoReq.round = 1 ∧
     AppBuilder.generate_app_with_llm appWorldBadCreate.llm =
       some [("index.html", "a"), ("README.md", "b")] ∧
     appWorldBadCreate.ghPub.createStatus ≠ 201 ∧
     appWorldBadCreate.ghPub.createStatus ≠ 422) ∧
    AppBuilder.process_task_async "u" demoReq appWorldBadCreate =
      (TaskState.failed, [Ev.llmCall, Ev.createRepo, Ev.failedLog]) :=
  ⟨⟨by decide, by decide, by decide, by decide⟩,
   C7_already_exists_idempotent.2.2.2.2.1 "u" demoReq appWorldBadCreate
     [("index.html", "a"), ("README.md", "b")]
     (by decide) (by decide) (by decide) (by decide)⟩

/-- C8: both variants always assign the fixed license text under the key
LICENSE into the file set before the commit loop (for every
generator-produced file set, the injected dict maps LICENSE to the fixed
text), and every publisher call that returns successfully has attempted the
commit of the LICENSE file. -/
theorem C8_license_always_injected :
    (∀ files : List (String × String),
       lookupKey (dictInsert files "LICENSE" AppBuilder.MIT_LICENSE_TEXT) "LICENSE" =
         some AppBuilder.MIT_LICENSE_TEXT) ∧
    (∀ files : List (String × String),
       lookupKey (dictInsert files "LICENSE" OpenAIDeployer.MIT_LICENSE_TEXT)
         "LICENSE" = some OpenAIDeployer.MIT_LICENSE_TEXT) ∧
    (∀ (u r : String) (rnd : Int) (files : List (String × String)) (env : GithubEnv)
       (d : RepoDetails),
       (AppBuilder.create_or_update_github_repo u r rnd files env).1 = .ok d →
       "LICENSE" ∈
         putFilesOf (AppBuilder.create_or_update_github_repo u r rnd files env).2) ∧
    (∀ (u r : String) (rnd : Int) (files : List (String × String)) (env : GithubEnv)
       (d : RepoDetails),
       (OpenAIDeployer.create_or_update_github_repo u r rnd files false env).1 =
         .ok d →
       "LICENSE" ∈
         putFilesOf
           (OpenAIDeployer.create_or_update_github_repo u r rnd files false env).2) := by
  refine ⟨?_, ?_, ?_, ?_⟩
  · intro files
    exact lookupKey_dictInsert files "LICENSE" AppBuilder.MIT_LICENSE_TEXT
  · intro files
    exact lookupKey_dictInsert files "LICENSE" OpenAIDeployer.MIT_LICENSE_TEXT
  · intro u r rnd files env d hok
    rw [appCreate_fst] at hok
    by_cases hbad : rnd = 1 ∧ env.createStatus ≠ 201 ∧ env.createStatus ≠ 422
    · rw [if_pos hbad] at hok; cases hok
    · rw [if_neg hbad] at hok
      rcases hcm : (commitFiles env.getStatus env.getSha env.putStatus env.putSha
        (dictInsert files "LICENSE" AppBuilder.MIT_LICENSE_TEXT) none).1 with u1 | sha
      · rw [hcm] at hok; cases hok
      · rw [appCreate_trace, putFilesOf_append, putFilesOf_append, if_neg hbad,
          putFilesOf_append, commitFiles_ok_putFiles hcm]
        simp only [List.mem_append]
        right; left
        exact mem_map_fst_dictInsert files "LICENSE" AppBuilder.MIT_LICENSE_TEXT
  · intro u r rnd files env d hok
    rw [oaiCreate_fst] at hok
    simp only [Bool.false_eq_true, if_false] at hok
    by_cases hbad : rnd = 1 ∧ env.createStatus ≠ 201 ∧ env.createStatus ≠ 422
    · rw [if_pos hbad] at hok; cases hok
    · rw [if_neg hbad] at hok
      rcases hcm : (commitFiles env.getStatus env.getSha env.putStatus env.putSha
        (dictInsert files "LICENSE" OpenAIDeployer.MIT_LICENSE_TEXT) none).1
        with u1 | sha
      · rw [hcm] at hok; cases hok
      · rw [oaiCreate_trace]
        simp only [Bool.false_eq_true, if_false]
        rw [putFilesOf_append, if_neg hbad, putFilesOf_append,
          commitFiles_ok_putFiles hcm]
        simp only [List.mem_append]
        right; left
        exact mem_map_fst_dictInsert files "LICENSE" OpenAIDeployer.MIT_LICENSE_TEXT

/-- C8 witness: a concrete successful round-1 publish in the app-builder
variant commits LICENSE alongside the generated file. -/
theorem C8_license_always_injected_witness :
    ((AppBuilder.create_or_update_github_repo "u" "demo-1" 1 [("index.html", "x")]
        okEnv).1 =
      Except.ok { repo_url := some "https://github.com/u/demo-1",
                  commit_sha := some "c1",
                  pages_url := some "https://u.github.io/demo-1/",
                  existing_code := none }) ∧
    "LICENSE" ∈
      putFilesOf (AppBuilder.create_or_update_github_repo "u" "demo-1" 1
        [("index.html", "x")] okEnv).2 :=
  ⟨by rfl,
   C8_license_always_injected.2.2.1 "u" "demo-1" 1 [("index.html", "x")] okEnv
     { repo_url := some "https://github.com/u/demo-1", commit_sha := some "c1",
       pages_url := some "https://u.github.io/demo-1/", existing_code := none }
     (by rfl)⟩

/-- Concrete request identical to demoReq but for round 2. -/
def demoReq2 : RequestData := { demoReq with round := 2 }

/-- Concrete all-success world for the app-builder variant. -/
def appWorldOK : AppBuilder.World :=
  { ghPre := okEnv, llm := .text (some [("index.html", "a"), ("README.md", "b")]),
    ghPub := okEnv, cb := fun _ => true }

/-- Concrete all-success world for the openai variant. -/
def oaiWorldOK : OpenAIDeployer.World :=
  { ghPre := okEnv, llm := .text (some [("index.html", "a"), ("README.md", "b")]),
    ghPub := okEnv, cb := fun _ => true }

/-- Concrete world whose generation call fails with a transport error. -/
def appWorldGenFail : AppBuilder.World :=
  { ghPre := okEnv, llm := .transport, ghPub := okEnv, cb := fun _ => true }

/-- Concrete world whose generation call fails with an API error. -/
def oaiWorldGenFail : OpenAIDeployer.World :=
  { ghPre := okEnv, llm := .apiError, ghPub := okEnv, cb := fun _ => true }

/-- C2: in both variants every failing generation outcome of the claim
(transport or timeout failure, non-success provider status, response whose
body fails JSON parsing, or a parsed object missing the index.html or the
README.md key) makes the generator return the one common failure value
None; and whenever the generation outcome of a task maps to None, the task
ends FAILED, the whole trace after the single LLM call is exactly the fatal
log line (so no publish attempt and no notification occur afterward), and
the LLM is called exactly once (no retry). -/
theorem C2_generation_failure_terminal :
    (AppBuilder.generate_app_with_llm .transport = none ∧
     AppBuilder.generate_app_with_llm .badStatus = none ∧
     AppBuilder.generate_app_with_llm .badShape = none ∧
     AppBuilder.generate_app_with_llm (.text none) = none ∧
     (∀ fs : List (String × String),
        ¬(hasKey fs "index.html" = true ∧ hasKey fs "README.md" = true) →
        AppBuilder.generate_app_with_llm (.text (some fs)) = none)) ∧
    (OpenAIDeployer.generate_app_with_llm .apiError = none ∧
     OpenAIDeployer.generate_app_with_llm (.text none) = none ∧
     (∀ fs : List (String × String),
        ¬(hasKey fs "index.html" = true ∧ hasKey fs "README.md" = true) →
        OpenAIDeployer.generate_app_with_llm (.text (some fs)) = none)) ∧
    (∀ (user : String) (t : RequestData) (w : AppBuilder.World),
       AppBuilder.generate_app_with_llm w.llm = none →
       (AppBuilder.process_task_async user t w).1 = TaskState.failed ∧
       afterLLM (AppBuilder.process_task_async user t w).2 = [Ev.failedLog] ∧
       countEv Ev.llmCall (AppBuilder.process_task_async user t w).2 = 1) ∧
    (∀ (user : String) (t : RequestData) (w : OpenAIDeployer.World),
       OpenAIDeployer.generate_app_with_llm w.llm = none →
       (OpenAIDeployer.process_task_async user t w).1 = TaskState.failed ∧
       afterLLM (OpenAIDeployer.process_task_async user t w).2 = [Ev.failedLog] ∧
       countEv Ev.llmCall (OpenAIDeployer.process_task_async user t w).2 = 1) := by
  refine ⟨⟨rfl, rfl, rfl, rfl, ?_⟩, ⟨rfl, rfl, ?_⟩, ?_, ?_⟩
  · intro fs h
    cases h1 : hasKey fs "index.html" <;> cases h2 : hasKey fs "README.md" <;>
      simp_all [AppBuilder.generate_app_with_llm]
  · intro fs h
    cases h1 : hasKey fs "index.html" <;> cases h2 : hasKey fs "README.md" <;>
      simp_all [OpenAIDeployer.generate_app_with_llm]
  · intro user t w hg
    have hpre : Ev.llmCall ∉
        (if t.round > 1 then
          (AppBuilder.create_or_update_github_repo user t.task t.round [] w.ghPre).2
         else []) := by
      split
      · exact llm_not_mem_appCreate
      · simp
    refine ⟨?_, ?_, ?_⟩
    · rw [appProcess_fst]; simp [hg]
    · rw [appProcess_trace]
      simp only [hg]
      rw [List.append_assoc, List.singleton_append]
      exact afterLLM_append_llm _ hpre
    · rw [appProcess_trace]
      simp only [hg]
      rw [countEv_append, countEv_append]
      have h1 : countEv Ev.llmCall
          (if t.round > 1 then
            (AppBuilder.create_or_update_github_repo user t.task t.round [] w.ghPre).2
           else []) = 0 := by
        split
        · exact appCreate_countEv_zero rfl (by decide) (by decide)
        · simp [countEv]
      rw [h1]
      simp [countEv]
  · intro user t w hg
    have hpre : Ev.llmCall ∉
        (if t.round > 1 then
          (OpenAIDeployer.create_or_update_github_repo user t.task t.round [] true
            w.ghPre).2
         else []) := by
      split
      · exact llm_not_mem_oaiCreate
      · simp
    refine ⟨?_, ?_, ?_⟩
    · rw [oaiProcess_fst]; simp [hg]
    · rw [oaiProcess_trace]
      simp only [hg]
      rw [List.append_assoc, List.singleton_append]
      exact afterLLM_append_llm _ hpre
    · rw [oaiProcess_trace]
      simp only [hg]
      rw [countEv_append, countEv_append]
      have h1 : countEv Ev.llmCall
          (if t.round > 1 then
            (OpenAIDeployer.create_or_update_github_repo user t.task t.round [] true
              w.ghPre).2
           else []) = 0 := by
        split
        · exact oaiCreate_countEv_zero rfl (by decide) (by decide)
        · simp [countEv]
      rw [h1]
      simp [countEv]

/-- C2 witness: both orchestrator clauses applied to concrete worlds whose
generation call fails (transport error and API error), with the hypothesis
discharged by evaluation. -/
theorem C2_generation_failure_terminal_witness :
    (AppBuilder.generate_app_with_llm appWorldGenFail.llm = none ∧
     (AppBuilder.process_task_async "u" demoReq appWorldGenFail).1 =
       TaskState.failed ∧
     afterLLM (AppBuilder.process_task_async "u" demoReq appWorldGenFail).2 =
       [Ev.failedLog]) ∧
    (OpenAIDeployer.generate_app_with_llm oaiWorldGenFail.llm = none ∧
     (OpenAIDeployer.process_task_async "u" demoReq oaiWorldGenFail).1 =
       TaskState.failed ∧
     afterLLM (OpenAIDeployer.process_task_async "u" demoReq oaiWorldGenFail).2 =
       [Ev.failedLog]) :=
  ⟨⟨rfl, (C2_generation_failure_terminal.2.2.1 "u" demoReq appWorldGenFail rfl).1,
    (C2_generation_failure_terminal.2.2.1 "u" demoReq appWorldGenFail rfl).2.1⟩,
   ⟨rfl, (C2_generation_failure_terminal.2.2.2 "u" demoReq oaiWorldGenFail rfl).1,
    (C2_generation_failure_terminal.2.2.2 "u" demoReq oaiWorldGenFail rfl).2.1⟩⟩

/-- C4: in both variants a round-1 task never performs the pre-fetch read
of the stored markup (no such read occurs anywhere in its trace), a
round-greater-than-1 task performs exactly one pre-fetch read before the
generation call, and the final state of the task never depends on the
hosting-platform behaviour seen by the pre-fetch call, embedding that every
pre-fetch failure is swallowed without transitioning the task to FAILED. -/
theorem C4_round_gated_prefetch :
    (∀ (user : String) (t : RequestData) (w : AppBuilder.World),
       (t.round = 1 →
          countEv Ev.fetchMarkup (AppBuilder.process_task_async user t w).2 = 0) ∧
       (t.round > 1 →
          countEv Ev.fetchMarkup
            (beforeLLM (AppBuilder.process_task_async user t w).2) = 1) ∧
       (∀ a b : GithubEnv,
          (AppBuilder.process_task_async user t { w with ghPre := a }).1 =
            (AppBuilder.process_task_async user t { w with ghPre := b }).1)) ∧
    (∀ (user : String) (t : RequestData) (w : OpenAIDeployer.World),
       (t.round = 1 →
          countEv Ev.fetchMarkup (OpenAIDeployer.process_task_async user t w).2 = 0) ∧
       (t.round > 1 →
          countEv Ev.fetchMarkup
            (beforeLLM (OpenAIDeployer.process_task_async user t w).2) = 1) ∧
       (∀ a b : GithubEnv,
          (OpenAIDeployer.process_task_async user t { w with ghPre := a }).1 =
            (OpenAIDeployer.process_task_async user t { w with ghPre := b }).1)) := by
  constructor
  · intro user t w
    refine ⟨?_, ?_, ?_⟩
    · intro h1
      have hgt : ¬t.round > 1 := by omega
      rw [appProcess_trace, countEv_append, countEv_append, if_neg hgt]
      have e2 : countEv Ev.fetchMarkup [Ev.llmCall] = 0 := by simp [countEv]
      rw [e2]
      rcases hg : AppBuilder.generate_app_with_llm w.llm with _ | files
      · simp [countEv]
      · rw [countEv_append, appCreate_fetch_count, if_neg hgt]
        rcases hres : (AppBuilder.create_or_update_github_repo user t.task t.round
          files w.ghPub).1 with u2 | d2
        · simp [countEv]
        · have e3 : countEv Ev.fetchMarkup (notify_evaluator w.cb) = 0 :=
            countEv_notify_zero (by decide) (by intro n h; cases h) (by decide)
          simp [countEv, e3]
    · intro hgt
      have hpre : Ev.llmCall ∉
          (if t.round > 1 then
            (AppBuilder.create_or_update_github_repo user t.task t.round [] w.ghPre).2
           else []) := by
        rw [if_pos hgt]
        exact llm_not_mem_appCreate
      rw [appProcess_trace, List.append_assoc, List.singleton_append,
        beforeLLM_append_llm _ hpre, if_pos hgt, appCreate_fetch_count, if_pos hgt]
    · intro a b
      rw [appProcess_fst, appProcess_fst]
  · intro user t w
    refine ⟨?_, ?_, ?_⟩
    · intro h1
      have hgt : ¬t.round > 1 := by omega
      rw [oaiProcess_trace, countEv_append, countEv_append, if_neg hgt]
      have e2 : countEv Ev.fetchMarkup [Ev.llmCall] = 0 := by simp [countEv]
      rw [e2]
      rcases hg : OpenAIDeployer.generate_app_with_llm w.llm with _ | files
      · simp [countEv]
      · rw [countEv_append, oaiCreate_pub_fetch_zero]
        rcases hres : (OpenAIDeployer.create_or_update_github_repo user t.task t.round
          files false w.ghPub).1 with u2 | d2
        · simp [countEv]
        · have e3 : countEv Ev.fetchMarkup (notify_evaluator w.cb) = 0 :=
            countEv_notify_zero (by decide) (by intro n h; cases h) (by decide)
          simp [countEv, e3]
    · intro hgt
      have hpre : Ev.llmCall ∉
          (if t.round > 1 then
            (OpenAIDeployer.create_or_update_github_repo user t.task t.round [] true
              w.ghPre).2
           else []) := by
        rw [if_pos hgt]
        exact llm_not_mem_oaiCreate
      rw [oaiProcess_trace, List.append_assoc, List.singleton_append,
        beforeLLM_append_llm _ hpre, if_pos hgt, oaiCreate_prefetch_trace]
      simp [countEv]
    · intro a b
      rw [oaiProcess_fst, oaiProcess_fst]

/-- C4 witness: the theorem applied to a concrete round-2 task (exactly one
pre-fetch read before generation, in both variants) and to a concrete
round-1 task (no pre-fetch read at all), hypotheses discharged by
evaluation. -/
theorem C4_round_gated_prefetch_witness :
    (demoReq2.round > 1 ∧
     countEv Ev.fetchMarkup
       (beforeLLM (AppBuilder.process_task_async "u" demoReq2 appWorldOK).2) = 1) ∧
    (demoReq.round = 1 ∧
     countEv Ev.fetchMarkup
       (AppBuilder.process_task_async "u" demoReq appWorldOK).2 = 0) ∧
    (demoReq2.round > 1 ∧
     countEv Ev.fetchMarkup
       (beforeLLM (OpenAIDeployer.process_task_async "u" demoReq2 oaiWorldOK).2) = 1) :=
  ⟨⟨by decide, (C4_round_gated_prefetch.1 "u" demoReq2 appWorldOK).2.1 (by decide)⟩,
   ⟨by decide, (C4_round_gated_prefetch.1 "u" demoReq appWorldOK).1 (by decide)⟩,
   ⟨by decide, (C4_round_gated_prefetch.2 "u" demoReq2 oaiWorldOK).2.1 (by decide)⟩⟩

theorem putFilesOf_pollPages (p : Nat → Option Nat) (i f : Nat) :
    putFilesOf (pollPages p i f).2 = [] := by
  induction f generalizing i with
  | zero => rfl
  | succ m ih =>
    simp only [pollPages]
    split
    · rfl
    · simp [putFilesOf, ih]

/-- C3 counterexample: the pre-generation publisher call of the app-builder
variant (round 2, empty generated file set, exactly as process_task_async
makes it) is a full publish call: with an all-success hosting platform it
commits the LICENSE file and its result carries the non-null commit
identifier of that write, contradicting the claim that the pre-fetch call
commits no files and returns a null commit identifier. -/
theorem C3_prefetch_counterexample :
    (AppBuilder.create_or_update_github_repo "u" "demo-1" 2 [] okEnv).1 =
      Except.ok { repo_url := some "https://github.com/u/demo-1",
                  commit_sha := some "c1",
                  pages_url := some "https://u.github.io/demo-1/",
                  existing_code := some "old" } ∧
    putFilesOf (AppBuilder.create_or_update_github_repo "u" "demo-1" 2 [] okEnv).2 =
      ["LICENSE"] := by
  constructor <;> rfl

/-- C3 amended: in the openai variant the pre-fetch call only reads the
stored markup (its whole trace is the one read, it commits nothing, and its
successful result carries no commit identifier); in the app-builder variant
the pre-generation call instead runs the ordinary publish path on the empty
generated set, so it commits exactly the LICENSE file and, when that write
succeeds, returns its commit identifier (non-null) together with the
fetched prior markup. -/
theorem C3_prefetch_amended :
    (∀ (u r : String) (rnd : Int) (files : List (String × String)) (env : GithubEnv),
       (OpenAIDeployer.create_or_update_github_repo u r rnd files true env).2 =
         [Ev.fetchMarkup] ∧
       putFilesOf
         (OpenAIDeployer.create_or_update_github_repo u r rnd files true env).2 = [] ∧
       (∀ d, (OpenAIDeployer.create_or_update_github_repo u r rnd files true
           env).1 = .ok d → d.commit_sha = none)) ∧
    (∀ (u r : String) (rnd : Int) (env : GithubEnv) (c : String), rnd > 1 →
       env.fetchIndex = .ok c → env.putStatus "LICENSE" = 200 →
       (AppBuilder.create_or_update_github_repo u r rnd [] env).1 =
         .ok { repo_url := some (AppBuilder.repoUrl u r),
               commit_sha := some (env.putSha "LICENSE"),
               pages_url := some (pagesLiveUrl u r), existing_code := some c } ∧
       putFilesOf (AppBuilder.create_or_update_github_repo u r rnd [] env).2 =
         ["LICENSE"]) := by
  constructor
  · intro u r rnd files env
    refine ⟨oaiCreate_prefetch_trace u r rnd files env, ?_, ?_⟩
    · rw [oaiCreate_prefetch_trace]
      rfl
    · intro d hok
      rw [oaiCreate_fst, if_pos rfl] at hok
      rcases hfi : env.fetchIndex with u0 | c <;> rw [hfi] at hok <;>
        injection hok with h <;> subst h <;> rfl
  · intro u r rnd env c hgt hfi hput
    have h1 : ¬(rnd = 1 ∧ env.createStatus ≠ 201 ∧ env.createStatus ≠ 422) := by
      intro h
      omega
    have hcm : commitFiles env.getStatus env.getSha env.putStatus env.putSha
        (dictInsert [] "LICENSE" AppBuilder.MIT_LICENSE_TEXT) none =
        (.ok (some (env.putSha "LICENSE")),
         [Ev.getMeta "LICENSE", Ev.putFile "LICENSE"]) := by
      simp [dictInsert, commitFiles, hput]
    constructor
    · rw [appCreate_fst, if_neg h1, hcm]
      simp [hgt, hfi]
    · rw [appCreate_trace, if_neg h1, hcm]
      have hr1 : ¬rnd = 1 := by omega
      rw [if_pos hgt, if_neg hr1]
      simp [putFilesOf, putFilesOf_append, putFilesOf_pollPages]

/-- C3 amended witness: the app-builder clause applied to the all-success
oracle at round 2, hypotheses discharged by evaluation. -/
theorem C3_prefetch_amended_witness :
    ((2 : Int) > 1 ∧ okEnv.fetchIndex = .ok "old" ∧ okEnv.putStatus "LICENSE" = 200) ∧
    ((AppBuilder.create_or_update_github_repo "u" "demo-1" 2 [] okEnv).1 =
      .ok { repo_url := some (AppBuilder.repoUrl "u" "demo-1"),
            commit_sha := some (okEnv.putSha "LICENSE"),
            pages_url := some (pagesLiveUrl "u" "demo-1"),
            existing_code := some "old" } ∧
     putFilesOf (AppBuilder.create_or_update_github_repo "u" "demo-1" 2 [] okEnv).2 =
       ["LICENSE"]) :=
  ⟨⟨by decide, by rfl, by rfl⟩,
   C3_prefetch_amended.2 "u" "demo-1" 2 okEnv "old" (by decide) (by rfl) (by rfl)⟩

/-- C1 witness: the gateway theorem applied at a concrete nonempty secret
and the matching demo request, with the hypothesis discharged. -/
theorem C1_gateway_auth_witness :
    ("s3cret" : String) ≠ "" ∧
    (((demoReq.secret = none ∨ demoReq.secret ≠ some "s3cret") →
       handle_request "s3cret" demoReq (fun _ => (TaskState.done, [])) =
         { status := 401, body := unauthorizedBody, workerSpawned := false,
           workerTrace := [] }) ∧
     (demoReq.secret = some "s3cret" →
       (handle_request "s3cret" demoReq (fun _ => (TaskState.done, []))).status = 200 ∧
       (handle_request "s3cret" demoReq (fun _ => (TaskState.done, []))).body =
         acceptedBody ∧
       (handle_request "s3cret" demoReq
         (fun _ => (TaskState.done, []))).workerSpawned = true ∧
       ∀ worker2 : RequestData → TaskState × List Ev,
         (handle_request "s3cret" demoReq worker2).status =
           (handle_request "s3cret" demoReq (fun _ => (TaskState.done, []))).status ∧
         (handle_request "s3cret" demoReq worker2).body =
           (handle_request "s3cret" demoReq (fun _ => (TaskState.done, []))).body) ∧
     (∀ env : String → Option String,
       check_environment_variables env
         ["MY_SECRET", "GITHUB_TOKEN", "GITHUB_USERNAME"] = true →
       env "MY_SECRET" = some "s3cret" → ("s3cret" : String) ≠ "")) :=
  ⟨by decide,
   C1_gateway_auth "s3cret" demoReq (fun _ => (TaskState.done, [])) (by decide)⟩

end AutoDeploy
